import Mathlib

/-!
Verification development for the lld-camp repository.

The development shallowly embeds the reservation/booking kernel of the
repository:

* `ParkingPl` models `src/parking_lot/pl.cpp` (the refined parking-lot
  implementation): spots, levels, the lowest-level-first assignment
  strategy, the hourly (ceiling) fee strategy, the ticket repository and
  the `ParkingLotService` operations `parkVehicle`, `unparkVehicle` and
  `getAvailableSlots`.
* `ParkingDraft` models the fee strategy of `src/parking_lot/parking_lot.cpp`
  (the earlier draft), whose `calculateFees` truncates with
  `duration_cast<hours>` instead of rounding up.
* `Bms` models `src/book_my_show/book_my_show.cpp`: shows, show seats,
  bookings, and the `createBooking` / `cancelBooking` service operations,
  including the `operator[]` default-insertion behaviour of the seat map.
* `Invoicing` models `src/Cpp/week 1/01-invoice-ans.cpp`: line items,
  discount strategies and the pricing part of `InvoiceService::process`.

C++ `double` amounts are modelled as exact rationals (`ℚ`); machine `int`
counters are modelled as `Nat`/`ℤ` (no arithmetic in the sources comes
near overflow); `std::chrono` time points are modelled as `Nat` counts
since the epoch, with `chrono` duration subtraction performed in `ℤ`.
In-place mutation through pointers is modelled as a positional update of
the first matching element, which is exactly the element the C++ pointer
designates.  `std::map`/`unordered_map` stores are modelled as association
lists where insertion prepends (or updates the first match) and lookup
returns the first match, matching the overwrite/lookup semantics of the
C++ maps.
-/

namespace ParkingPl

/-- Vehicle categories, from `enum class VehicleType` in pl.cpp. -/
inductive VehicleType
  | CAR
  | BIKE
  | TRUCK
deriving DecidableEq

/-- Spot categories, from `enum class SpotType` in pl.cpp. -/
inductive SpotType
  | COMPACT
  | LARGE
  | HANDICAPPED
deriving DecidableEq

/-- A parking spot, from `class ParkingSpot` in pl.cpp. -/
structure ParkingSpot where
  id : Nat
  type : SpotType
  isOccupied : Bool
deriving DecidableEq

/-- `ParkingSpot::canFit` from pl.cpp: a HANDICAPPED spot fits anything,
a COMPACT spot fits cars and bikes, a LARGE spot fits cars and trucks. -/
def ParkingSpot.canFit (s : ParkingSpot) (v : VehicleType) : Bool :=
  if s.type = SpotType.HANDICAPPED then true
  else if v = VehicleType.CAR ∧ s.type = SpotType.COMPACT then true
  else if (v = VehicleType.CAR ∨ v = VehicleType.TRUCK) ∧ s.type = SpotType.LARGE then true
  else if v = VehicleType.BIKE ∧ s.type = SpotType.COMPACT then true
  else false

/-- The availability test `!spot.isOccupied() && spot.canFit(type)` used by
`ParkingLevel::countAvailableSpots` and `ParkingLevel::findAvailableSpot`. -/
def ParkingSpot.availFor (s : ParkingSpot) (v : VehicleType) : Bool :=
  !s.isOccupied && s.canFit v

/-- A parking level, from `class ParkingLevel` in pl.cpp. -/
structure ParkingLevel where
  id : Nat
  levelNumber : Nat
  spots : List ParkingSpot
deriving DecidableEq

/-- `ParkingLevel::countAvailableSpots`: counts free fitting spots. -/
def ParkingLevel.countAvailableSpots (l : ParkingLevel) (v : VehicleType) : Nat :=
  l.spots.countP (fun s => s.availFor v)

/-- `ParkingLevel::findAvailableSpot`: the first free fitting spot. -/
def ParkingLevel.findAvailableSpot (l : ParkingLevel) (v : VehicleType) : Option ParkingSpot :=
  l.spots.find? (fun s => s.availFor v)

/-- `LowestLevelFirstStrategy::assignSpot` from pl.cpp: scan the levels in
order and return the first level's first free fitting spot. -/
def LowestLevelFirstStrategy.assignSpot :
    List ParkingLevel → VehicleType → Option ParkingSpot
  | [], _ => none
  | l :: ls, v =>
    match l.findAvailableSpot v with
    | some s => some s
    | none => LowestLevelFirstStrategy.assignSpot ls v

/-- The parking lot, from `class ParkingLot` in pl.cpp. -/
structure ParkingLot where
  id : Nat
  name : String
  levels : List ParkingLevel
deriving DecidableEq

/-- All spots of a list of levels, in iteration order (level order, then
spot order within a level). -/
def allSpots (ls : List ParkingLevel) : List ParkingSpot :=
  ls.flatMap (fun l => l.spots)

/-- `ParkingLot::getSpotById` from pl.cpp: the first spot (in level order,
then spot order) whose id matches. -/
def ParkingLot.getSpotById (lot : ParkingLot) (spotId : Nat) : Option ParkingSpot :=
  (allSpots lot.levels).find? (fun s => s.id = spotId)

/-- The combined effect of `assignSpot` followed by `spot->setOccupied(true)`
in `parkVehicle`: locate the first free fitting spot and flip its
`isOccupied` flag in place, returning its id and the updated spot list. -/
def occupySpots : List ParkingSpot → VehicleType → Option (Nat × List ParkingSpot)
  | [], _ => none
  | s :: ss, v =>
    if s.availFor v then some (s.id, { s with isOccupied := true } :: ss)
    else (occupySpots ss v).map (fun p => (p.1, s :: p.2))

/-- Level-list version of `occupySpots`, mirroring the level loop of
`LowestLevelFirstStrategy::assignSpot`. -/
def occupyLevels : List ParkingLevel → VehicleType → Option (Nat × List ParkingLevel)
  | [], _ => none
  | l :: ls, v =>
    match occupySpots l.spots v with
    | some (sid, sp) => some (sid, { l with spots := sp } :: ls)
    | none => (occupyLevels ls v).map (fun p => (p.1, l :: p.2))

/-- The combined effect of `getSpotById` followed by
`spot->setOccupied(false)` in `unparkVehicle`: clear the `isOccupied` flag
of the first spot with the given id, or `none` when the id is absent. -/
def freeSpots : List ParkingSpot → Nat → Option (List ParkingSpot)
  | [], _ => none
  | s :: ss, sid =>
    if s.id = sid then some ({ s with isOccupied := false } :: ss)
    else (freeSpots ss sid).map (fun sp => s :: sp)

/-- Level-list version of `freeSpots`, mirroring the level loop of
`ParkingLot::getSpotById`. -/
def freeLevels : List ParkingLevel → Nat → Option (List ParkingLevel)
  | [], _ => none
  | l :: ls, sid =>
    match freeSpots l.spots sid with
    | some sp => some ({ l with spots := sp } :: ls)
    | none => (freeLevels ls sid).map (fun ls1 => l :: ls1)

/-- A ticket, from `class Ticket` in pl.cpp.  `outTime = 0` is the
default-constructed epoch time point of an open ticket. -/
structure Ticket where
  id : Nat
  vehicleLicensePlate : String
  parkingSpotId : Nat
  inTime : Nat
  outTime : Nat
  fees : ℚ
deriving DecidableEq

/-- `Ticket::closed` from pl.cpp: `outTime_.time_since_epoch().count() != 0`. -/
def Ticket.closed (t : Ticket) : Bool :=
  decide (t.outTime ≠ 0)

/-- `Ticket::close` from pl.cpp: records the out time and the fee. -/
def Ticket.close (t : Ticket) (fee : ℚ) (now : Nat) : Ticket :=
  { t with outTime := now, fees := fee }

/-- The ticket store, from `class TicketRepository` and the static
`Ticket::nextId` counter in pl.cpp.  The C++ map keyed by ticket id with
overwrite-on-insert is modelled as a list with prepend and
first-match lookup. -/
structure TicketRepository where
  tickets : List Ticket
  nextId : Nat
deriving DecidableEq

/-- `TicketRepository::getTicket`: lookup by ticket id. -/
def TicketRepository.getTicket (repo : TicketRepository) (tid : Nat) : Option Ticket :=
  repo.tickets.find? (fun t => t.id = tid)

/-- `TicketRepository::createTicket` with the `Ticket` constructor of
pl.cpp: the new ticket gets id `++nextId`, the given plate, spot id and
in-time, a zero (epoch) out-time and zero fees, and is stored. -/
def TicketRepository.createTicket (repo : TicketRepository) (plate : String)
    (spotId : Nat) (inTime : Nat) : Ticket × TicketRepository :=
  let t : Ticket :=
    { id := repo.nextId + 1, vehicleLicensePlate := plate, parkingSpotId := spotId,
      inTime := inTime, outTime := 0, fees := 0 }
  (t, { tickets := t :: repo.tickets, nextId := repo.nextId + 1 })

/-- The in-place `ticket->close(fee)` mutation of `unparkVehicle`: close the
first ticket with the given id (the one `getTicket` returns). -/
def closeFirst : List Ticket → Nat → ℚ → Nat → List Ticket
  | [], _, _, _ => []
  | t :: ts, tid, fee, now =>
    if t.id = tid then t.close fee now :: ts
    else t :: closeFirst ts tid fee now

/-- `HourlyRateCalculationStrategy::calculateFees` from pl.cpp: the elapsed
seconds are divided by 3600 and rounded up (`ceil`), then multiplied by the
$10 hourly rate. -/
def HourlyRateCalculationStrategy.calculateFees (inTime outTime : Nat) : ℚ :=
  let durationSeconds : ℤ := (outTime : ℤ) - (inTime : ℤ)
  let billedHours : ℤ := ⌈(durationSeconds : ℚ) / 3600⌉
  (billedHours : ℚ) * 10

/-- The whole-service state: the lot reference plus the owned ticket
repository of `class ParkingLotService` in pl.cpp. -/
structure ParkingLotService where
  parkingLot : ParkingLot
  ticketRepo : TicketRepository
deriving DecidableEq

/-- The typed failures `unparkVehicle` throws as `runtime_error`s. -/
inductive UnparkError
  | TicketNotFound
  | TicketAlreadyClosed
deriving DecidableEq

/-- `ParkingLotService::parkVehicle` from pl.cpp: assign the first free
fitting spot (returning `none`, the empty ticket string, when there is
none), mark it occupied, create and store a ticket stamped `now`, and
return the new ticket id. -/
def ParkingLotService.parkVehicle (st : ParkingLotService) (plate : String)
    (v : VehicleType) (now : Nat) : Option Nat × ParkingLotService :=
  match occupyLevels st.parkingLot.levels v with
  | none => (none, st)
  | some (sid, levels1) =>
    let p := st.ticketRepo.createTicket plate sid now
    (some p.1.id,
      { parkingLot := { st.parkingLot with levels := levels1 }, ticketRepo := p.2 })

/-- `ParkingLotService::unparkVehicle` from pl.cpp: look the ticket up
(`TicketNotFound` if absent), reject closed tickets
(`TicketAlreadyClosed`), compute the fee for `[inTime, now]`, close the
ticket, then free the spot recorded on the ticket; when the spot id is
absent from the lot a critical error is logged and the call still returns
the fee. -/
def ParkingLotService.unparkVehicle (st : ParkingLotService) (tid : Nat)
    (now : Nat) : Except UnparkError (ℚ × ParkingLotService) :=
  match st.ticketRepo.getTicket tid with
  | none => .error .TicketNotFound
  | some t =>
    if t.closed then .error .TicketAlreadyClosed
    else
      let fee := HourlyRateCalculationStrategy.calculateFees t.inTime now
      let repo1 : TicketRepository :=
        { tickets := closeFirst st.ticketRepo.tickets tid fee now,
          nextId := st.ticketRepo.nextId }
      match freeLevels st.parkingLot.levels t.parkingSpotId with
      | none => .ok (fee, { st with ticketRepo := repo1 })
      | some levels1 =>
        .ok (fee,
          { parkingLot := { st.parkingLot with levels := levels1 },
            ticketRepo := repo1 })

/-- `ParkingLotService::getAvailableSlots`: total of the per-level counts. -/
def ParkingLotService.getAvailableSlots (st : ParkingLotService)
    (v : VehicleType) : Nat :=
  (st.parkingLot.levels.map (fun l => l.countAvailableSpots v)).sum

/-- A service call against the shared state: `parkVehicle` or
`unparkVehicle` with its wall-clock time. -/
inductive Op
  | park (plate : String) (v : VehicleType) (now : Nat)
  | unpark (tid : Nat) (now : Nat)
deriving DecidableEq

/-- The wall clock of a release is not the epoch (`Clock::now()` of pl.cpp
is never the zero time point). -/
def Op.timeNonzero : Op → Bool
  | .park _ _ _ => true
  | .unpark _ now => decide (now ≠ 0)

/-- The state left behind by one service call (return values discarded). -/
def stepOp (st : ParkingLotService) : Op → ParkingLotService
  | .park plate v now => (st.parkVehicle plate v now).2
  | .unpark tid now =>
    match st.unparkVehicle tid now with
    | .ok p => p.2
    | .error _ => st

/-- The state after a sequence of service calls. -/
def runOps (st : ParkingLotService) : List Op → ParkingLotService
  | [] => st
  | op :: ops => runOps (stepOp st op) ops

/-- The service over a freshly constructed lot: empty ledger, counter as
initialised by `int Ticket::nextId = 0`. -/
def initService (lot : ParkingLot) : ParkingLotService :=
  { parkingLot := lot, ticketRepo := { tickets := [], nextId := 0 } }

/-- Number of open (not yet closed) tickets recording a given spot id. -/
def openCount (tickets : List Ticket) (sid : Nat) : Nat :=
  tickets.countP (fun t => !t.closed && t.parkingSpotId = sid)

/-- Number of successful allocations in a run of `parkVehicle` calls (each
request carries a plate and a wall-clock time) for one vehicle category. -/
def countParkSuccesses (st : ParkingLotService) :
    List (String × Nat) → VehicleType → Nat
  | [], _ => 0
  | r :: rs, v =>
    let p := st.parkVehicle r.1 v r.2
    (if p.1.isSome then 1 else 0) + countParkSuccesses p.2 rs v

end ParkingPl

namespace ParkingDraft

/-- `HourlyRateCalculationStrategy::calculateFees` from the draft
parking_lot.cpp: `duration_cast<chrono::hours>` truncates the elapsed
seconds toward zero, and the truncated hour count is multiplied by the
$10 hourly rate. -/
def HourlyRateCalculationStrategy.calculateFees (inTime outTime : Nat) : ℚ :=
  let durationHours : ℤ := Int.tdiv ((outTime : ℤ) - (inTime : ℤ)) 3600
  (durationHours : ℚ) * 10

end ParkingDraft

namespace Bms

/-- From `enum class SeatStatus` in book_my_show.cpp. -/
inductive SeatStatus
  | AVAILABLE
  | LOCKED
  | BOOKED
deriving DecidableEq

/-- From `enum class BookingStatus` in book_my_show.cpp. -/
inductive BookingStatus
  | PENDING
  | CONFIRMED
  | CANCELLED
deriving DecidableEq

/-- A per-show seat, from `class ShowSeat` in book_my_show.cpp. -/
structure ShowSeat where
  seatId : Nat
  price : ℚ
  status : SeatStatus
deriving DecidableEq

/-- The default-constructed `ShowSeat()` of book_my_show.cpp: seat id 0,
price 0, status AVAILABLE.  This is the value `unordered_map::operator[]`
inserts for an absent key. -/
def ShowSeat.defaultSeat : ShowSeat :=
  { seatId := 0, price := 0, status := .AVAILABLE }

/-- Lookup in the seat map (`unordered_map<int, ShowSeat>`): value stored
under the key, if any. -/
def seatsFind (seats : List (Nat × ShowSeat)) (sid : Nat) : Option ShowSeat :=
  (seats.find? (fun p => p.1 = sid)).map (fun p => p.2)

/-- Keyed update of the seat map: replace the value stored under the key,
inserting when absent (the write half of `operator[]`). -/
def seatsSet : List (Nat × ShowSeat) → Nat → ShowSeat → List (Nat × ShowSeat)
  | [], sid, v => [(sid, v)]
  | p :: ps, sid, v =>
    if p.1 = sid then (sid, v) :: ps else p :: seatsSet ps sid v

/-- `seats[sid]` as used for reading in book_my_show.cpp:
`unordered_map::operator[]` returns the stored value and, when the key is
absent, first inserts a default-constructed `ShowSeat`. -/
def seatsIndex (seats : List (Nat × ShowSeat)) (sid : Nat) :
    ShowSeat × List (Nat × ShowSeat) :=
  match seatsFind seats sid with
  | some s => (s, seats)
  | none => (ShowSeat.defaultSeat, seats ++ [(sid, ShowSeat.defaultSeat)])

/-- A show, from `class Show` in book_my_show.cpp. -/
structure Show where
  id : Nat
  movieId : Nat
  theaterId : Nat
  startTime : String
  seats : List (Nat × ShowSeat)
deriving DecidableEq

/-- A booking, from `class Booking` in book_my_show.cpp. -/
structure Booking where
  id : Nat
  userId : Nat
  showId : Nat
  seatIds : List Nat
  amount : ℚ
  status : BookingStatus
deriving DecidableEq

/-- `ShowRepository::findById`: lookup of the show stored under the key. -/
def showsFind (shows : List (Nat × Show)) (sid : Nat) : Option Show :=
  (shows.find? (fun p => p.1 = sid)).map (fun p => p.2)

/-- In-place mutation of the show object the repository's pointer
designates: replace the value stored under the key. -/
def showsUpdate : List (Nat × Show) → Nat → Show → List (Nat × Show)
  | [], _, _ => []
  | p :: ps, sid, s =>
    if p.1 = sid then (sid, s) :: ps else p :: showsUpdate ps sid s

/-- The booking store with its `nextId = 1000` counter, from
`class BookingRepository` in book_my_show.cpp. -/
structure BookingRepository where
  bookings : List Booking
  nextId : Nat
deriving DecidableEq

/-- `BookingRepository::findById`: lookup by booking id. -/
def bookingsFind (bs : List Booking) (bid : Nat) : Option Booking :=
  bs.find? (fun b => b.id = bid)

/-- The in-place `booking->status = CANCELLED` mutation of
`cancelBooking`: update the first booking with the given id. -/
def setCancelled : List Booking → Nat → List Booking
  | [], _ => []
  | b :: bs, bid =>
    if b.id = bid then { b with status := .CANCELLED } :: bs
    else b :: setCancelled bs bid

/-- `HolidayPricing::calculate`: a 50% surge on the base price. -/
def HolidayPricing.calculate (base : ℚ) : ℚ := base * (3 / 2)

/-- `RegularPricing::calculate`: the base price unchanged. -/
def RegularPricing.calculate (base : ℚ) : ℚ := base

/-- The typed failures `createBooking` throws as `runtime_error`s. -/
inductive BookingError
  | ShowNotFound
  | SeatOccupied (sid : Nat)
deriving DecidableEq

/-- The availability-validation loop of `createBooking`: for each requested
seat id, read `show->seats[sid]` (inserting a default seat when the key is
absent) and stop with an error as soon as the status is not AVAILABLE.
Returns the error, if any, together with the seat map as mutated so far. -/
def validateSeats : List Nat → List (Nat × ShowSeat) →
    Option BookingError × List (Nat × ShowSeat)
  | [], seats => (none, seats)
  | sid :: rest, seats =>
    let p := seatsIndex seats sid
    if p.1.status ≠ SeatStatus.AVAILABLE then (some (.SeatOccupied sid), p.2)
    else validateSeats rest p.2

/-- The lock-and-price loop of `createBooking`: for each requested seat id,
set `show->seats[sid].status = BOOKED` and add
`pricingStrategy->calculate(show->seats[sid].price)` to the total. -/
def bookSeats (pricing : ℚ → ℚ) : List Nat → List (Nat × ShowSeat) → ℚ →
    ℚ × List (Nat × ShowSeat)
  | [], seats, total => (total, seats)
  | sid :: rest, seats, total =>
    let p := seatsIndex seats sid
    let seats2 := seatsSet p.2 sid { p.1 with status := SeatStatus.BOOKED }
    let q := seatsIndex seats2 sid
    bookSeats pricing rest q.2 (total + pricing q.1.price)

/-- The seat-release loop of `cancelBooking`: for each seat id of the
booking, set `show->seats[sid].status = AVAILABLE`. -/
def releaseSeats : List Nat → List (Nat × ShowSeat) → List (Nat × ShowSeat)
  | [], seats => seats
  | sid :: rest, seats =>
    let p := seatsIndex seats sid
    releaseSeats rest (seatsSet p.2 sid { p.1 with status := SeatStatus.AVAILABLE })

/-- The shared state of `BookMyShowService`: the show repository and the
booking repository (the movie repository plays no part in booking). -/
structure BmsState where
  shows : List (Nat × Show)
  bookingRepo : BookingRepository
deriving DecidableEq

/-- `BookMyShowService::createBooking` from book_my_show.cpp,
parameterised by the injected pricing strategy.  The show lookup failure
and the seat-availability failure are the two `runtime_error` throws; the
seat map mutations performed by `operator[]` before a throw persist, since
the loop works in place on the repository's show.  On success every
requested seat is BOOKED, the total is priced seat by seat, and a
CONFIRMED booking is persisted under the next booking id. -/
def BmsState.createBooking (pricing : ℚ → ℚ) (st : BmsState) (userId showId : Nat)
    (seatIds : List Nat) : Except BookingError Booking × BmsState :=
  match showsFind st.shows showId with
  | none => (.error .ShowNotFound, st)
  | some sh =>
    let p := validateSeats seatIds sh.seats
    match p.1 with
    | some e =>
      (.error e, { st with shows := showsUpdate st.shows showId { sh with seats := p.2 } })
    | none =>
      let q := bookSeats pricing seatIds p.2 0
      let b : Booking :=
        { id := st.bookingRepo.nextId, userId := userId, showId := showId,
          seatIds := seatIds, amount := q.1, status := .CONFIRMED }
      (.ok b,
        { shows := showsUpdate st.shows showId { sh with seats := q.2 },
          bookingRepo :=
            { bookings := b :: st.bookingRepo.bookings,
              nextId := st.bookingRepo.nextId + 1 } })

/-- `BookMyShowService::cancelBooking` from book_my_show.cpp: `false` when
the booking is unknown or already CANCELLED; otherwise the booked seats
are released back to AVAILABLE on the booking's show (when that show still
exists), the booking is marked CANCELLED, and `true` is returned. -/
def BmsState.cancelBooking (st : BmsState) (bid : Nat) : Bool × BmsState :=
  match bookingsFind st.bookingRepo.bookings bid with
  | none => (false, st)
  | some booking =>
    if booking.status = BookingStatus.CANCELLED then (false, st)
    else
      let st1 :=
        match showsFind st.shows booking.showId with
        | none => st
        | some sh =>
          { st with
            shows := showsUpdate st.shows booking.showId
              { sh with seats := releaseSeats booking.seatIds sh.seats } }
      (true,
        { st1 with
          bookingRepo :=
            { st1.bookingRepo with
              bookings := setCancelled st1.bookingRepo.bookings bid } })

end Bms

namespace Invoicing

/-- A line item, from `struct LineItem` in 01-invoice-ans.cpp. -/
structure LineItem where
  sku : String
  quantity : ℤ
  unitPrice : ℚ
deriving DecidableEq

/-- The two discount strategies of 01-invoice-ans.cpp
(`PercentDiscount` and `FlatDiscount`). -/
inductive IDiscount
  | percentDiscount (percentage : ℚ)
  | flatDiscount (amount : ℚ)
deriving DecidableEq

/-- `IDiscount::apply`: a percentage of the subtotal, or a flat amount. -/
def IDiscount.apply : IDiscount → ℚ → ℚ
  | .percentDiscount p, subtotal => subtotal * (p / 100)
  | .flatDiscount a, _ => a

/-- An invoice, from `class Invoice` in 01-invoice-ans.cpp.  The discount
list holds `shared_ptr`s, which may be null; null entries are skipped by
`process`. -/
structure Invoice where
  items : List LineItem
  discounts : List (Option IDiscount)
  email : String

/-- The subtotal loop of `InvoiceService::process`:
`subtotal += it.unitPrice * it.quantity`. -/
def subtotalOf (items : List LineItem) : ℚ :=
  items.foldl (fun acc it => acc + it.unitPrice * (it.quantity : ℚ)) 0

/-- The discount loop of `InvoiceService::process`: every non-null strategy
is applied to the same subtotal and the results accumulate. -/
def discountTotalOf (discounts : List (Option IDiscount)) (subtotal : ℚ) : ℚ :=
  discounts.foldl
    (fun acc d =>
      match d with
      | none => acc
      | some ds => acc + ds.apply subtotal) 0

/-- `FixedRateTaxCalculator::calculate`: the taxable amount times the rate. -/
def FixedRateTaxCalculator.calculate (rate : ℚ) (taxableAmount : ℚ) : ℚ :=
  taxableAmount * rate

/-- The numeric outputs of `InvoiceService::process` (rendering, emailing
and logging only format these figures). -/
structure InvoiceTotals where
  subtotal : ℚ
  discountTotal : ℚ
  tax : ℚ
  grandTotal : ℚ
deriving DecidableEq

/-- The pricing part of `InvoiceService::process` from 01-invoice-ans.cpp,
parameterised by the injected tax calculator: subtotal, summed discounts,
tax on `subtotal - discount_total`, and
`grand = subtotal - discount_total + tax`. -/
def InvoiceService.process (taxCalculate : ℚ → ℚ) (invoice : Invoice) :
    InvoiceTotals :=
  let subtotal := subtotalOf invoice.items
  let discountTotal := discountTotalOf invoice.discounts subtotal
  let taxableAmount := subtotal - discountTotal
  let tax := taxCalculate taxableAmount
  { subtotal := subtotal, discountTotal := discountTotal, tax := tax,
    grandTotal := subtotal - discountTotal + tax }

end Invoicing


namespace ParkingPl

/-- The ledger/pool consistency invariant of the parking service: spot ids
are unique across the lot, a spot is occupied exactly when one open ticket
records its id, and no spot id is recorded by two open tickets. -/
def Inv (st : ParkingLotService) : Prop :=
  ((allSpots st.parkingLot.levels).map (fun s => s.id)).Nodup
  ∧ (∀ s ∈ allSpots st.parkingLot.levels,
      (s.isOccupied = true ↔ openCount st.ticketRepo.tickets s.id = 1))
  ∧ (∀ sid, openCount st.ticketRepo.tickets sid ≤ 1)

end ParkingPl

/-- The sample invoice of the demo `main`, with a flat discount added. -/
def sampleItems : List Invoicing.LineItem :=
  [⟨"ITEM-001", 3, 100⟩, ⟨"ITEM-002", 1, 250⟩]

/-- A pair of discount strategies, in the two possible orders. -/
def sampleDiscounts : List (Option Invoicing.IDiscount) :=
  [some (.percentDiscount 10), some (.flatDiscount 25)]

/-- The same discount strategies, swapped. -/
def sampleDiscountsSwapped : List (Option Invoicing.IDiscount) :=
  [some (.flatDiscount 25), some (.percentDiscount 10)]

namespace ParkingPl

/-- The demo lot constructed in `main` of pl.cpp: two levels with spots
101/102/103 and 201/202, all initially free. -/
def demoLot : ParkingLot :=
  { id := 10, name := "Downtown Garage",
    levels :=
      [ { id := 1, levelNumber := 1,
          spots :=
            [ { id := 101, type := .COMPACT, isOccupied := false },
              { id := 102, type := .LARGE, isOccupied := false },
              { id := 103, type := .COMPACT, isOccupied := false } ] },
        { id := 2, levelNumber := 2,
          spots :=
            [ { id := 201, type := .HANDICAPPED, isOccupied := false },
              { id := 202, type := .LARGE, isOccupied := false } ] } ] }

/-- A demo call sequence: park a car and a truck, then release the car's
ticket an hour and a second later. -/
def demoOps : List Op :=
  [.park "ABC-123" .CAR 100, .park "XYZ-789" .TRUCK 200, .unpark 1 3701]

end ParkingPl

namespace ParkingPl

/-- A one-spot service whose open ticket records spot id 999, which is
absent from every level. -/
def ghostSpotService : ParkingLotService :=
  { parkingLot :=
      { id := 10, name := "Downtown Garage",
        levels :=
          [ { id := 1, levelNumber := 1,
              spots := [ { id := 101, type := .COMPACT, isOccupied := false } ] } ] },
    ticketRepo :=
      { tickets :=
          [ { id := 1, vehicleLicensePlate := "ABC-123", parkingSpotId := 999,
              inTime := 0, outTime := 0, fees := 0 } ],
        nextId := 1 } }

/-- A one-spot service holding one open ticket for its occupied spot 101. -/
def heldSpotService : ParkingLotService :=
  { parkingLot :=
      { id := 10, name := "Downtown Garage",
        levels :=
          [ { id := 1, levelNumber := 1,
              spots := [ { id := 101, type := .COMPACT, isOccupied := true } ] } ] },
    ticketRepo :=
      { tickets :=
          [ { id := 1, vehicleLicensePlate := "ABC-123", parkingSpotId := 101,
              inTime := 0, outTime := 0, fees := 0 } ],
        nextId := 1 } }

/-- A repository holding one ticket, as after the first demo park. -/
def demoRepo : TicketRepository :=
  { tickets :=
      [ { id := 1, vehicleLicensePlate := "ABC-123", parkingSpotId := 101,
          inTime := 100, outTime := 0, fees := 0 } ],
    nextId := 1 }

end ParkingPl

namespace Bms

/-- A state with one CONFIRMED booking of the demo show's seat 10. -/
def bookedDemoState : BmsState :=
  { shows :=
      [ (501,
          { id := 501, movieId := 1, theaterId := 1, startTime := "",
            seats := [(10, { seatId := 10, price := 20, status := .BOOKED })] }) ],
    bookingRepo :=
      { bookings :=
          [ { id := 1000, userId := 99, showId := 501, seatIds := [10],
              amount := 30, status := .CONFIRMED } ],
        nextId := 1001 } }

end Bms

namespace Bms

/-- A state whose only show (id 501) has seat 1 BOOKED and no other seat. -/
def bookedSeatState : BmsState :=
  { shows :=
      [ (501,
          { id := 501, movieId := 1, theaterId := 1, startTime := "",
            seats := [(1, { seatId := 1, price := 20, status := .BOOKED })] }) ],
    bookingRepo := { bookings := [], nextId := 1000 } }

/-- A state whose only show (id 501) has one AVAILABLE seat and nothing
stored for seat id 2. -/
def openSeatState : BmsState :=
  { shows :=
      [ (501,
          { id := 501, movieId := 1, theaterId := 1, startTime := "",
            seats := [(1, { seatId := 1, price := 20, status := .AVAILABLE })] }) ],
    bookingRepo := { bookings := [], nextId := 1000 } }

end Bms

/-! ## Supporting lemmas -/

namespace ParkingPl

theorem assignSpot_eq_find (ls : List ParkingLevel) (v : VehicleType) :
    LowestLevelFirstStrategy.assignSpot ls v
      = (allSpots ls).find? (fun s => s.availFor v) := by
  induction ls with
  | nil => rfl
  | cons l ls ih =>
    rw [LowestLevelFirstStrategy.assignSpot, allSpots, List.flatMap_cons,
      List.find?_append, ParkingLevel.findAvailableSpot]
    cases h : l.spots.find? (fun s => s.availFor v) with
    | none => simpa [h, allSpots] using ih
    | some s => simp [h]

end ParkingPl

namespace Invoicing

theorem discountTotalOf_eq_sum (ds : List (Option IDiscount)) (sub : ℚ) :
    discountTotalOf ds sub
      = ((ds.filterMap id).map (fun d => d.apply sub)).sum := by
  suffices h : ∀ a : ℚ,
      ds.foldl
        (fun acc d =>
          match d with
          | none => acc
          | some dd => acc + dd.apply sub) a
        = a + ((ds.filterMap id).map (fun d => d.apply sub)).sum by
    simpa [discountTotalOf] using h 0
  induction ds with
  | nil => intro a; simp
  | cons d ds ih =>
    intro a
    cases d with
    | none => simpa using ih a
    | some dd => simp [ih, add_assoc]

end Invoicing

/-! ## Claim theorems -/

/-- Claim C2: the pl.cpp `HourlyRateCalculationStrategy::calculateFees`
bills the elapsed duration rounded up to the next whole hour at $10/hour,
so 3600 seconds bill $10 and 3601 seconds bill $20; the draft
parking_lot.cpp strategy of the same name instead truncates with
`duration_cast<hours>` and bills 3601 seconds at $10, diverging from the
ceiling rule (and from the draft's own demo comment). -/
theorem hourlyFees_billing_boundary :
    ParkingPl.HourlyRateCalculationStrategy.calculateFees 0 3600 = 10
    ∧ ParkingPl.HourlyRateCalculationStrategy.calculateFees 0 3601 = 20
    ∧ ParkingDraft.HourlyRateCalculationStrategy.calculateFees 0 3601 = 10 := by
  refine ⟨?_, ?_, ?_⟩
  · show ((⌈(((3600 : ℤ) - 0 : ℤ) : ℚ) / 3600⌉ : ℤ) : ℚ) * 10 = 10
    norm_num
  · show ((⌈(((3601 : ℤ) - 0 : ℤ) : ℚ) / 3600⌉ : ℤ) : ℚ) * 10 = 20
    have h : (⌈((3601 : ℚ)) / 3600⌉ : ℤ) = 2 := by
      rw [Int.ceil_eq_iff]
      norm_num
    norm_num [h]
  · show ((Int.tdiv ((3601 : ℤ) - 0) 3600 : ℤ) : ℚ) * 10 = 10
    norm_num [Int.tdiv]

/-- Claim C6: the default allocation strategy
`LowestLevelFirstStrategy::assignSpot` returns the first spot, in level
order and then spot order within each level, that is unoccupied and fits
the requested vehicle type, and returns `none` exactly when no such spot
exists. -/
theorem assignSpot_first_fit (ls : List ParkingPl.ParkingLevel)
    (v : ParkingPl.VehicleType) :
    ParkingPl.LowestLevelFirstStrategy.assignSpot ls v
      = (ParkingPl.allSpots ls).find? (fun s => !s.isOccupied && s.canFit v)
    ∧ (ParkingPl.LowestLevelFirstStrategy.assignSpot ls v = none
        ↔ ∀ s ∈ ParkingPl.allSpots ls, (!s.isOccupied && s.canFit v) = false) := by
  have h := ParkingPl.assignSpot_eq_find ls v
  refine ⟨h, ?_⟩
  rw [h, List.find?_eq_none]
  simp [ParkingPl.ParkingSpot.availFor]

/-- Claim C8: the discount total of `InvoiceService::process` is the sum of
each (non-null) discount strategy applied to the same pre-discount
subtotal, not chained; permuting the discount list therefore changes
neither the discount total nor the grand total. -/
theorem process_discounts_sum_not_chained (taxCalculate : ℚ → ℚ)
    (items : List Invoicing.LineItem) (email email2 : String)
    (ds ds2 : List (Option Invoicing.IDiscount)) (hperm : ds.Perm ds2) :
    (Invoicing.InvoiceService.process taxCalculate ⟨items, ds, email⟩).discountTotal
      = ((ds.filterMap id).map
          (fun d => d.apply (Invoicing.subtotalOf items))).sum
    ∧ (Invoicing.InvoiceService.process taxCalculate ⟨items, ds, email⟩).discountTotal
      = (Invoicing.InvoiceService.process taxCalculate ⟨items, ds2, email2⟩).discountTotal
    ∧ (Invoicing.InvoiceService.process taxCalculate ⟨items, ds, email⟩).grandTotal
      = (Invoicing.InvoiceService.process taxCalculate ⟨items, ds2, email2⟩).grandTotal := by
  have hsum : Invoicing.discountTotalOf ds (Invoicing.subtotalOf items)
      = Invoicing.discountTotalOf ds2 (Invoicing.subtotalOf items) := by
    rw [Invoicing.discountTotalOf_eq_sum, Invoicing.discountTotalOf_eq_sum]
    exact ((hperm.filterMap id).map (fun d => d.apply (Invoicing.subtotalOf items))).sum_eq
  refine ⟨Invoicing.discountTotalOf_eq_sum ds (Invoicing.subtotalOf items), ?_, ?_⟩
  · simpa [Invoicing.InvoiceService.process] using hsum
  · simp only [Invoicing.InvoiceService.process]
    rw [hsum]

/-- Witness for C8 at the demo invoice: the two discounts sum over the same
subtotal and swapping them changes no total. -/
theorem process_discounts_sum_not_chained_witness :
    (Invoicing.InvoiceService.process (Invoicing.FixedRateTaxCalculator.calculate (18/100))
        ⟨sampleItems, sampleDiscounts, "customer@example.com"⟩).discountTotal
      = ((sampleDiscounts.filterMap id).map
          (fun d => d.apply (Invoicing.subtotalOf sampleItems))).sum
    ∧ (Invoicing.InvoiceService.process (Invoicing.FixedRateTaxCalculator.calculate (18/100))
        ⟨sampleItems, sampleDiscounts, "customer@example.com"⟩).discountTotal
      = (Invoicing.InvoiceService.process (Invoicing.FixedRateTaxCalculator.calculate (18/100))
        ⟨sampleItems, sampleDiscountsSwapped, "customer@example.com"⟩).discountTotal
    ∧ (Invoicing.InvoiceService.process (Invoicing.FixedRateTaxCalculator.calculate (18/100))
        ⟨sampleItems, sampleDiscounts, "customer@example.com"⟩).grandTotal
      = (Invoicing.InvoiceService.process (Invoicing.FixedRateTaxCalculator.calculate (18/100))
        ⟨sampleItems, sampleDiscountsSwapped, "customer@example.com"⟩).grandTotal :=
  process_discounts_sum_not_chained (Invoicing.FixedRateTaxCalculator.calculate (18/100))
    sampleItems "customer@example.com" "customer@example.com"
    sampleDiscounts sampleDiscountsSwapped
    (List.Perm.swap (some (Invoicing.IDiscount.flatDiscount 25))
      (some (Invoicing.IDiscount.percentDiscount 10))
      ([] : List (Option Invoicing.IDiscount)))

namespace ParkingPl

theorem allSpots_nil : allSpots [] = [] := rfl

theorem allSpots_cons (l : ParkingLevel) (ls : List ParkingLevel) :
    allSpots (l :: ls) = l.spots ++ allSpots ls := by
  simp [allSpots]

theorem occupySpots_eq_some {sp sp1 : List ParkingSpot} {v : VehicleType} {sid : Nat}
    (h : occupySpots sp v = some (sid, sp1)) :
    ∃ pre s post, sp = pre ++ s :: post
      ∧ sp1 = pre ++ { s with isOccupied := true } :: post
      ∧ s.availFor v = true ∧ (∀ x ∈ pre, x.availFor v = false) ∧ sid = s.id := by
  induction sp generalizing sp1 with
  | nil => simp [occupySpots] at h
  | cons s ss ih =>
    rw [occupySpots] at h
    by_cases hs : s.availFor v
    · rw [if_pos hs] at h
      obtain ⟨h1, h2⟩ : s.id = sid ∧ { s with isOccupied := true } :: ss = sp1 := by
        simpa using h
      exact ⟨[], s, ss, rfl, h2.symm, hs, by simp, h1.symm⟩
    · rw [if_neg hs] at h
      obtain ⟨⟨sid2, ss1⟩, hrec, heq⟩ := Option.map_eq_some'.mp h
      obtain ⟨h1, h2⟩ : sid2 = sid ∧ s :: ss1 = sp1 := by simpa using heq
      obtain ⟨pre, s0, post, hsp, hsp1, hav, hpre, hsid⟩ := ih (h1 ▸ hrec)
      refine ⟨s :: pre, s0, post, by simp [hsp], by simp [← h2, hsp1], hav, ?_, hsid⟩
      intro x hx
      rcases List.mem_cons.mp hx with rfl | hx
      · simpa using hs
      · exact hpre x hx

theorem occupySpots_eq_none {sp : List ParkingSpot} {v : VehicleType} :
    occupySpots sp v = none ↔ ∀ s ∈ sp, s.availFor v = false := by
  induction sp with
  | nil => simp [occupySpots]
  | cons s ss ih =>
    rw [occupySpots]
    by_cases hs : s.availFor v
    · simp [if_pos hs, hs]
    · simp only [if_neg hs, Option.map_eq_none', ih, List.mem_cons]
      constructor
      · rintro hall x (rfl | hx)
        · simpa using hs
        · exact hall x hx
      · intro hall x hx
        exact hall x (Or.inr hx)

theorem occupyLevels_eq_some {ls ls1 : List ParkingLevel} {v : VehicleType} {sid : Nat}
    (h : occupyLevels ls v = some (sid, ls1)) :
    ∃ pre s post, allSpots ls = pre ++ s :: post
      ∧ allSpots ls1 = pre ++ { s with isOccupied := true } :: post
      ∧ s.availFor v = true ∧ (∀ x ∈ pre, x.availFor v = false) ∧ sid = s.id := by
  induction ls generalizing ls1 with
  | nil => simp [occupyLevels] at h
  | cons l ls ih =>
    rw [occupyLevels] at h
    cases hoc : occupySpots l.spots v with
    | some p =>
      obtain ⟨sid0, sp⟩ := p
      rw [hoc] at h
      obtain ⟨h1, h2⟩ : sid0 = sid ∧ { l with spots := sp } :: ls = ls1 := by
        simpa using h
      obtain ⟨pre, s, post, hsp, hsp1, hav, hpre, hsid⟩ := occupySpots_eq_some hoc
      refine ⟨pre, s, post ++ allSpots ls, ?_, ?_, hav, hpre, h1 ▸ hsid⟩
      · rw [allSpots_cons, hsp]
        simp
      · rw [← h2, allSpots_cons]
        show sp ++ allSpots ls = _
        rw [hsp1]
        simp
    | none =>
      rw [hoc] at h
      obtain ⟨⟨sid2, ls2⟩, hrec, heq⟩ := Option.map_eq_some'.mp h
      obtain ⟨h1, h2⟩ : sid2 = sid ∧ l :: ls2 = ls1 := by simpa using heq
      obtain ⟨pre, s, post, hsp, hsp1, hav, hpre, hsid⟩ := ih (h1 ▸ hrec)
      refine ⟨l.spots ++ pre, s, post, ?_, ?_, hav, ?_, hsid⟩
      · rw [allSpots_cons, hsp]
        simp
      · rw [← h2, allSpots_cons, hsp1]
        simp
      · intro x hx
        rcases List.mem_append.mp hx with hx | hx
        · exact occupySpots_eq_none.mp hoc x hx
        · exact hpre x hx

theorem occupyLevels_eq_none {ls : List ParkingLevel} {v : VehicleType} :
    occupyLevels ls v = none ↔ ∀ s ∈ allSpots ls, s.availFor v = false := by
  induction ls with
  | nil => simp [occupyLevels, allSpots]
  | cons l ls ih =>
    rw [occupyLevels]
    cases hoc : occupySpots l.spots v with
    | some p =>
      obtain ⟨sid0, sp⟩ := p
      simp only [hoc]
      constructor
      · intro h
        exact absurd h (by simp)
      · intro h
        obtain ⟨pre, s, post, hsp, _, hav, _, _⟩ := occupySpots_eq_some hoc
        have hmem : s ∈ allSpots (l :: ls) := by
          rw [allSpots_cons, hsp]
          simp
        rw [h s hmem] at hav
        exact absurd hav (by simp)
    | none =>
      have hall := occupySpots_eq_none.mp hoc
      simp only [hoc, Option.map_eq_none', ih]
      constructor
      · intro h x hx
        rw [allSpots_cons] at hx
        rcases List.mem_append.mp hx with hx | hx
        · exact hall x hx
        · exact h x hx
      · intro h x hx
        refine h x ?_
        rw [allSpots_cons]
        exact List.mem_append.mpr (Or.inr hx)

theorem freeSpots_eq_some {sp sp1 : List ParkingSpot} {sid : Nat}
    (h : freeSpots sp sid = some sp1) :
    ∃ pre s post, sp = pre ++ s :: post
      ∧ sp1 = pre ++ { s with isOccupied := false } :: post
      ∧ s.id = sid ∧ (∀ x ∈ pre, x.id ≠ sid) := by
  induction sp generalizing sp1 with
  | nil => simp [freeSpots] at h
  | cons s ss ih =>
    rw [freeSpots] at h
    by_cases hs : s.id = sid
    · rw [if_pos hs] at h
      refine ⟨[], s, ss, rfl, by simpa using h.symm, hs, by simp⟩
    · rw [if_neg hs] at h
      obtain ⟨ss1, hrec, heq⟩ := Option.map_eq_some'.mp h
      obtain ⟨pre, s0, post, hsp, hsp1, hid, hpre⟩ := ih hrec
      refine ⟨s :: pre, s0, post, by simp [hsp], by simp [← heq, hsp1], hid, ?_⟩
      intro x hx
      rcases List.mem_cons.mp hx with rfl | hx
      · exact hs
      · exact hpre x hx

theorem freeSpots_eq_none {sp : List ParkingSpot} {sid : Nat} :
    freeSpots sp sid = none ↔ ∀ s ∈ sp, s.id ≠ sid := by
  induction sp with
  | nil => simp [freeSpots]
  | cons s ss ih =>
    rw [freeSpots]
    by_cases hs : s.id = sid
    · simp [if_pos hs, hs]
    · simp only [if_neg hs, Option.map_eq_none', ih, List.mem_cons]
      constructor
      · rintro hall x (rfl | hx)
        · exact hs
        · exact hall x hx
      · intro hall x hx
        exact hall x (Or.inr hx)

theorem freeLevels_eq_some {ls ls1 : List ParkingLevel} {sid : Nat}
    (h : freeLevels ls sid = some ls1) :
    ∃ pre s post, allSpots ls = pre ++ s :: post
      ∧ allSpots ls1 = pre ++ { s with isOccupied := false } :: post
      ∧ s.id = sid ∧ (∀ x ∈ pre, x.id ≠ sid) := by
  induction ls generalizing ls1 with
  | nil => simp [freeLevels] at h
  | cons l ls ih =>
    rw [freeLevels] at h
    cases hfs : freeSpots l.spots sid with
    | some sp =>
      rw [hfs] at h
      have h2 : { l with spots := sp } :: ls = ls1 := by simpa using h
      obtain ⟨pre, s, post, hsp, hsp1, hid, hpre⟩ := freeSpots_eq_some hfs
      refine ⟨pre, s, post ++ allSpots ls, ?_, ?_, hid, hpre⟩
      · rw [allSpots_cons, hsp]
        simp
      · rw [← h2, allSpots_cons]
        show sp ++ allSpots ls = _
        rw [hsp1]
        simp
    | none =>
      rw [hfs] at h
      obtain ⟨ls2, hrec, heq⟩ := Option.map_eq_some'.mp h
      obtain ⟨pre, s, post, hsp, hsp1, hid, hpre⟩ := ih hrec
      refine ⟨l.spots ++ pre, s, post, ?_, ?_, hid, ?_⟩
      · rw [allSpots_cons, hsp]
        simp
      · rw [← heq, allSpots_cons, hsp1]
        simp
      · intro x hx
        rcases List.mem_append.mp hx with hx | hx
        · exact freeSpots_eq_none.mp hfs x hx
        · exact hpre x hx

theorem freeLevels_eq_none {ls : List ParkingLevel} {sid : Nat} :
    freeLevels ls sid = none ↔ ∀ s ∈ allSpots ls, s.id ≠ sid := by
  induction ls with
  | nil => simp [freeLevels, allSpots]
  | cons l ls ih =>
    rw [freeLevels]
    cases hfs : freeSpots l.spots sid with
    | some sp =>
      simp only [hfs]
      constructor
      · intro h
        exact absurd h (by simp)
      · intro h
        obtain ⟨pre, s, post, hsp, _, hid, _⟩ := freeSpots_eq_some hfs
        have hmem : s ∈ allSpots (l :: ls) := by
          rw [allSpots_cons, hsp]
          simp
        exact absurd hid (h s hmem)
    | none =>
      have hall := freeSpots_eq_none.mp hfs
      simp only [hfs, Option.map_eq_none', ih]
      constructor
      · intro h x hx
        rw [allSpots_cons] at hx
        rcases List.mem_append.mp hx with hx | hx
        · exact hall x hx
        · exact h x hx
      · intro h x hx
        refine h x ?_
        rw [allSpots_cons]
        exact List.mem_append.mpr (Or.inr hx)

theorem getSpotById_eq_none_iff_freeLevels {lot : ParkingLot} {sid : Nat} :
    lot.getSpotById sid = none ↔ freeLevels lot.levels sid = none := by
  rw [ParkingLot.getSpotById, List.find?_eq_none, freeLevels_eq_none]
  constructor
  · intro h s hs
    simpa using h s hs
  · intro h s hs
    simpa using h s hs

end ParkingPl

namespace ParkingPl

theorem openCount_nil (sid : Nat) : openCount [] sid = 0 := rfl

theorem openCount_cons (t : Ticket) (ts : List Ticket) (sid : Nat) :
    openCount (t :: ts) sid
      = openCount ts sid
        + (if (!t.closed && t.parkingSpotId = sid) = true then 1 else 0) := by
  simp [openCount, List.countP_cons]

theorem closed_close {t : Ticket} {fee : ℚ} {now : Nat} (hnow : now ≠ 0) :
    (t.close fee now).closed = true := by
  simp [Ticket.close, Ticket.closed, hnow]

theorem openCount_closeFirst {ts : List Ticket} {tid : Nat} {t : Ticket}
    (h : ts.find? (fun x => x.id = tid) = some t) (hopen : t.closed = false)
    (fee : ℚ) {now : Nat} (hnow : now ≠ 0) (sid : Nat) :
    openCount ts sid
      = openCount (closeFirst ts tid fee now) sid
        + (if t.parkingSpotId = sid then 1 else 0) := by
  induction ts with
  | nil => simp at h
  | cons x ts ih =>
    by_cases hx : x.id = tid
    · have hxt : x = t := by
        rw [List.find?_cons] at h
        simpa [hx] using h
      subst hxt
      rw [closeFirst, if_pos hx, openCount_cons, openCount_cons,
        closed_close hnow, hopen]
      simp [add_assoc, add_comm]
    · have hfind : ts.find? (fun x => x.id = tid) = some t := by
        rw [List.find?_cons] at h
        simpa [hx] using h
      rw [closeFirst, if_neg hx, openCount_cons, openCount_cons, ih hfind]
      ring

theorem getTicket_closeFirst {ts : List Ticket} {tid : Nat} {t : Ticket}
    (h : ts.find? (fun x => x.id = tid) = some t) (fee : ℚ) (now : Nat) :
    (closeFirst ts tid fee now).find? (fun x => x.id = tid)
      = some (t.close fee now) := by
  induction ts with
  | nil => simp at h
  | cons x ts ih =>
    by_cases hx : x.id = tid
    · have hxt : x = t := by
        rw [List.find?_cons] at h
        simpa [hx] using h
      subst hxt
      rw [closeFirst, if_pos hx]
      exact List.find?_cons_of_pos _ (by simp [Ticket.close, hx])
    · have hfind : ts.find? (fun x => x.id = tid) = some t := by
        rw [List.find?_cons] at h
        simpa [hx] using h
      rw [closeFirst, if_neg hx]
      rw [List.find?_cons_of_neg _ (by simpa using hx)]
      exact ih hfind

theorem open_mem_openCount_pos {ts : List Ticket} {t : Ticket}
    (hmem : t ∈ ts) (hopen : t.closed = false) :
    0 < openCount ts t.parkingSpotId := by
  rw [openCount, List.countP_pos_iff]
  exact ⟨t, hmem, by simp [hopen]⟩

theorem sum_countAvailable (ls : List ParkingLevel) (v : VehicleType) :
    (ls.map (fun l => l.countAvailableSpots v)).sum
      = (allSpots ls).countP (fun s => s.availFor v) := by
  induction ls with
  | nil => simp [allSpots]
  | cons l ls ih =>
    rw [List.map_cons, List.sum_cons, allSpots_cons, List.countP_append, ih]
    rfl

theorem countP_occupy {ls ls1 : List ParkingLevel} {v : VehicleType} {sid : Nat}
    (h : occupyLevels ls v = some (sid, ls1)) :
    (allSpots ls).countP (fun s => s.availFor v)
      = (allSpots ls1).countP (fun s => s.availFor v) + 1 := by
  obtain ⟨pre, s, post, hsp, hsp1, hav, _, _⟩ := occupyLevels_eq_some h
  rw [hsp, hsp1, List.countP_append, List.countP_append,
    List.countP_cons, List.countP_cons]
  have h1 : ({ s with isOccupied := true } : ParkingSpot).availFor v = false := by
    simp [ParkingSpot.availFor]
  rw [hav, h1]
  simp [add_assoc]

theorem getAvailableSlots_parkVehicle_success {st : ParkingLotService}
    {plate : String} {v : VehicleType} {now : Nat} {tid : Nat}
    {st1 : ParkingLotService} (h : st.parkVehicle plate v now = (some tid, st1)) :
    st.getAvailableSlots v = st1.getAvailableSlots v + 1 := by
  rw [ParkingLotService.parkVehicle] at h
  cases hoc : occupyLevels st.parkingLot.levels v with
  | none => rw [hoc] at h; simp at h
  | some p =>
    obtain ⟨sid, ls1⟩ := p
    rw [hoc] at h
    have hst1 : st1.parkingLot.levels = ls1 := by
      have := congrArg Prod.snd h
      simp at this
      rw [← this]
    rw [ParkingLotService.getAvailableSlots, ParkingLotService.getAvailableSlots,
      sum_countAvailable, sum_countAvailable, hst1]
    exact countP_occupy hoc

end ParkingPl

namespace ParkingPl

theorem nodup_ids_append {a b : List ParkingSpot}
    (h : ((a ++ b).map (fun s => s.id)).Nodup) :
    (a.map (fun s => s.id)).Nodup ∧ (b.map (fun s => s.id)).Nodup
      ∧ ∀ x ∈ a, ∀ y ∈ b, x.id ≠ y.id := by
  rw [List.map_append, List.nodup_append] at h
  obtain ⟨h1, h2, h3⟩ := h
  refine ⟨h1, h2, ?_⟩
  intro x hx y hy heq
  exact h3 (List.mem_map_of_mem _ hx) (heq ▸ List.mem_map_of_mem _ hy)

theorem nodup_ids_split {pre post : List ParkingSpot} {s : ParkingSpot}
    (h : ((pre ++ s :: post).map (fun x => x.id)).Nodup) :
    (∀ x ∈ pre, x.id ≠ s.id) ∧ ∀ x ∈ post, x.id ≠ s.id := by
  obtain ⟨_, h2, h3⟩ := nodup_ids_append h
  constructor
  · intro x hx
    exact h3 x hx s (by simp)
  · intro x hx
    rw [List.map_cons, List.nodup_cons] at h2
    intro heq
    exact h2.1 (heq ▸ List.mem_map_of_mem _ hx)

theorem ids_allSpots_occupy {ls ls1 : List ParkingLevel} {v : VehicleType} {sid : Nat}
    (h : occupyLevels ls v = some (sid, ls1)) :
    (allSpots ls1).map (fun s => s.id) = (allSpots ls).map (fun s => s.id) := by
  obtain ⟨pre, s, post, hsp, hsp1, _, _, _⟩ := occupyLevels_eq_some h
  rw [hsp, hsp1]
  simp

theorem ids_allSpots_free {ls ls1 : List ParkingLevel} {sid : Nat}
    (h : freeLevels ls sid = some ls1) :
    (allSpots ls1).map (fun s => s.id) = (allSpots ls).map (fun s => s.id) := by
  obtain ⟨pre, s, post, hsp, hsp1, _, _⟩ := freeLevels_eq_some h
  rw [hsp, hsp1]
  simp

theorem occupySpots_sid_mem {sp sp1 : List ParkingSpot} {v : VehicleType} {sid : Nat}
    (h : occupySpots sp v = some (sid, sp1)) : sid ∈ sp.map (fun s => s.id) := by
  obtain ⟨pre, s, post, hsp, _, _, _, hsid⟩ := occupySpots_eq_some h
  rw [hsp, hsid]
  simp

theorem occupyLevels_sid_mem {ls ls1 : List ParkingLevel} {v : VehicleType} {sid : Nat}
    (h : occupyLevels ls v = some (sid, ls1)) :
    sid ∈ (allSpots ls).map (fun s => s.id) := by
  obtain ⟨pre, s, post, hsp, _, _, _, hsid⟩ := occupyLevels_eq_some h
  rw [hsp, hsid]
  simp

theorem freeSpots_occupySpots {sp sp1 : List ParkingSpot} {v : VehicleType} {sid : Nat}
    (h : occupySpots sp v = some (sid, sp1))
    (hnd : (sp.map (fun s => s.id)).Nodup) : freeSpots sp1 sid = some sp := by
  induction sp generalizing sp1 with
  | nil => simp [occupySpots] at h
  | cons s ss ih =>
    rw [occupySpots] at h
    by_cases hs : s.availFor v
    · rw [if_pos hs] at h
      obtain ⟨h1, h2⟩ : s.id = sid ∧ { s with isOccupied := true } :: ss = sp1 := by
        simpa using h
      rw [← h2, freeSpots, if_pos (by simpa using h1)]
      obtain ⟨i, ty, occ⟩ := s
      have hocc : occ = false ∧ ParkingSpot.canFit ⟨i, ty, occ⟩ v = true := by
        simpa [ParkingSpot.availFor] using hs
      rw [hocc.1]
    · rw [if_neg hs] at h
      obtain ⟨⟨sid2, ss1⟩, hrec, heq⟩ := Option.map_eq_some'.mp h
      obtain ⟨h1, h2⟩ : sid2 = sid ∧ s :: ss1 = sp1 := by simpa using heq
      subst h1
      rw [List.map_cons, List.nodup_cons] at hnd
      have hne : s.id ≠ sid2 := by
        intro heq2
        exact hnd.1 (heq2 ▸ occupySpots_sid_mem hrec)
      rw [← h2, freeSpots, if_neg hne, ih hrec hnd.2]
      rfl

theorem freeLevels_occupyLevels {ls ls1 : List ParkingLevel} {v : VehicleType} {sid : Nat}
    (h : occupyLevels ls v = some (sid, ls1))
    (hnd : ((allSpots ls).map (fun s => s.id)).Nodup) : freeLevels ls1 sid = some ls := by
  induction ls generalizing ls1 with
  | nil => simp [occupyLevels] at h
  | cons l ls ih =>
    rw [allSpots_cons] at hnd
    obtain ⟨hnd1, hnd2, hnd3⟩ := nodup_ids_append hnd
    rw [occupyLevels] at h
    cases hoc : occupySpots l.spots v with
    | some p =>
      obtain ⟨sid0, sp⟩ := p
      rw [hoc] at h
      obtain ⟨h1, h2⟩ : sid0 = sid ∧ { l with spots := sp } :: ls = ls1 := by
        simpa using h
      subst h1
      rw [← h2, freeLevels]
      show (match freeSpots sp sid0 with
        | some sp2 => some ({ { l with spots := sp } with spots := sp2 } :: ls)
        | none => (freeLevels ls sid0).map (fun ls2 => { l with spots := sp } :: ls2))
        = _
      rw [freeSpots_occupySpots hoc hnd1]
    | none =>
      rw [hoc] at h
      obtain ⟨⟨sid2, ls2⟩, hrec, heq⟩ := Option.map_eq_some'.mp h
      obtain ⟨h1, h2⟩ : sid2 = sid ∧ l :: ls2 = ls1 := by simpa using heq
      subst h1
      rw [← h2, freeLevels]
      have hnone : freeSpots l.spots sid2 = none := by
        rw [freeSpots_eq_none]
        intro s hsmem heq2
        obtain ⟨pre, s0, post, hsp, _, _, _, hsid⟩ := occupyLevels_eq_some hrec
        have hs0 : s0 ∈ allSpots ls := by
          rw [hsp]
          simp
        exact hnd3 s hsmem s0 hs0 (heq2.trans (hsid ▸ rfl))
      rw [hnone, ih hrec hnd2]
      rfl

end ParkingPl

namespace ParkingPl

theorem inv_init (lot : ParkingLot)
    (hids : ((allSpots lot.levels).map (fun s => s.id)).Nodup)
    (hfree : ∀ s ∈ allSpots lot.levels, s.isOccupied = false) :
    Inv (initService lot) := by
  refine ⟨hids, ?_, ?_⟩
  · intro s hs
    rw [hfree s hs]
    simp [initService, openCount]
  · intro sid
    simp [initService, openCount]

theorem inv_park (st : ParkingLotService) (plate : String) (v : VehicleType)
    (now : Nat) (h : Inv st) : Inv (st.parkVehicle plate v now).2 := by
  obtain ⟨hA, hB, hC⟩ := h
  rw [ParkingLotService.parkVehicle]
  cases hoc : occupyLevels st.parkingLot.levels v with
  | none => exact ⟨hA, hB, hC⟩
  | some p =>
    obtain ⟨sid, ls1⟩ := p
    simp only [TicketRepository.createTicket]
    obtain ⟨pre, s, post, hsp, hsp1, hav, hpre, hsid⟩ := occupyLevels_eq_some hoc
    have hsoc : s.isOccupied = false := by
      obtain ⟨h1, -⟩ : s.isOccupied = false ∧ s.canFit v = true := by
        simpa [ParkingSpot.availFor] using hav
      exact h1
    have hsmem : s ∈ allSpots st.parkingLot.levels := by
      rw [hsp]; simp
    have hopen0 : openCount st.ticketRepo.tickets s.id = 0 := by
      have hne1 : openCount st.ticketRepo.tickets s.id ≠ 1 := by
        intro heq
        have htr := (hB s hsmem).mpr heq
        rw [htr] at hsoc
        exact absurd hsoc (by simp)
      have := hC s.id
      omega
    have hnds : ((pre ++ s :: post).map (fun x => x.id)).Nodup := by
      rw [← hsp]; exact hA
    obtain ⟨hprene, hpostne⟩ := nodup_ids_split hnds
    have hcount : ∀ y,
        openCount
          ({ id := st.ticketRepo.nextId + 1, vehicleLicensePlate := plate,
             parkingSpotId := sid, inTime := now, outTime := 0, fees := 0 }
            :: st.ticketRepo.tickets) y
          = openCount st.ticketRepo.tickets y + (if s.id = y then 1 else 0) := by
      intro y
      rw [openCount_cons]
      have : (Ticket.closed
          { id := st.ticketRepo.nextId + 1, vehicleLicensePlate := plate,
            parkingSpotId := sid, inTime := now, outTime := 0, fees := 0 }) = false := by
        simp [Ticket.closed]
      rw [this]
      simp [hsid]
    refine ⟨?_, ?_, ?_⟩
    · show ((allSpots ls1).map (fun s => s.id)).Nodup
      rw [ids_allSpots_occupy hoc]
      exact hA
    · intro x hx
      show x.isOccupied = true ↔
        openCount
          ({ id := st.ticketRepo.nextId + 1, vehicleLicensePlate := plate,
             parkingSpotId := sid, inTime := now, outTime := 0, fees := 0 }
            :: st.ticketRepo.tickets) x.id = 1
      rw [hcount x.id]
      have hx1 : x ∈ allSpots ls1 := hx
      rw [hsp1] at hx1
      rcases List.mem_append.mp hx1 with hxpre | hxrest
      · have hne : x.id ≠ s.id := hprene x hxpre
        rw [if_neg (fun hh => hne hh.symm)]
        have hxorig : x ∈ allSpots st.parkingLot.levels := by
          rw [hsp]; exact List.mem_append.mpr (Or.inl hxpre)
        simpa using hB x hxorig
      · rcases List.mem_cons.mp hxrest with rfl | hxpost
        · rw [if_pos rfl, hopen0]
          simp
        · have hne : x.id ≠ s.id := hpostne x hxpost
          rw [if_neg (fun hh => hne hh.symm)]
          have hxorig : x ∈ allSpots st.parkingLot.levels := by
            rw [hsp]
            exact List.mem_append.mpr (Or.inr (List.mem_cons_of_mem _ hxpost))
          simpa using hB x hxorig
    · intro y
      show openCount
          ({ id := st.ticketRepo.nextId + 1, vehicleLicensePlate := plate,
             parkingSpotId := sid, inTime := now, outTime := 0, fees := 0 }
            :: st.ticketRepo.tickets) y ≤ 1
      rw [hcount y]
      by_cases hy : s.id = y
      · rw [if_pos hy, ← hy, hopen0]
      · rw [if_neg hy]
        have := hC y
        omega

end ParkingPl

namespace ParkingPl

theorem unparkVehicle_eq_notfound {st : ParkingLotService} {tid : Nat} (now : Nat)
    (hft : st.ticketRepo.getTicket tid = none) :
    st.unparkVehicle tid now = .error .TicketNotFound := by
  simp [ParkingLotService.unparkVehicle, hft]

theorem unparkVehicle_eq_closed {st : ParkingLotService} {tid : Nat} (now : Nat)
    {t : Ticket}
    (hft : st.ticketRepo.getTicket tid = some t) (hcl : t.closed = true) :
    st.unparkVehicle tid now = .error .TicketAlreadyClosed := by
  simp [ParkingLotService.unparkVehicle, hft, hcl]

theorem unparkVehicle_eq_ok_missing {st : ParkingLotService} {tid : Nat} (now : Nat)
    {t : Ticket}
    (hft : st.ticketRepo.getTicket tid = some t) (hcl : t.closed = false)
    (hfl : freeLevels st.parkingLot.levels t.parkingSpotId = none) :
    st.unparkVehicle tid now
      = .ok (HourlyRateCalculationStrategy.calculateFees t.inTime now,
        { st with
          ticketRepo :=
            { tickets := closeFirst st.ticketRepo.tickets tid
                (HourlyRateCalculationStrategy.calculateFees t.inTime now) now,
              nextId := st.ticketRepo.nextId } }) := by
  simp [ParkingLotService.unparkVehicle, hft, hcl, hfl]

theorem unparkVehicle_eq_ok_freed {st : ParkingLotService} {tid : Nat} (now : Nat)
    {t : Ticket} {ls1 : List ParkingLevel}
    (hft : st.ticketRepo.getTicket tid = some t) (hcl : t.closed = false)
    (hfl : freeLevels st.parkingLot.levels t.parkingSpotId = some ls1) :
    st.unparkVehicle tid now
      = .ok (HourlyRateCalculationStrategy.calculateFees t.inTime now,
        { parkingLot := { st.parkingLot with levels := ls1 },
          ticketRepo :=
            { tickets := closeFirst st.ticketRepo.tickets tid
                (HourlyRateCalculationStrategy.calculateFees t.inTime now) now,
              nextId := st.ticketRepo.nextId } }) := by
  simp [ParkingLotService.unparkVehicle, hft, hcl, hfl]

theorem inv_step (st : ParkingLotService) (op : Op) (hop : op.timeNonzero = true)
    (h : Inv st) : Inv (stepOp st op) := by
  cases op with
  | park plate v now =>
    exact inv_park st plate v now h
  | unpark tid now =>
    have hnow : now ≠ 0 := by simpa [Op.timeNonzero] using hop
    obtain ⟨hA, hB, hC⟩ := h
    show Inv (match st.unparkVehicle tid now with
      | .ok p => p.2
      | .error _ => st)
    cases hft : st.ticketRepo.getTicket tid with
    | none =>
      rw [unparkVehicle_eq_notfound now hft]
      exact ⟨hA, hB, hC⟩
    | some t =>
      cases hcl : t.closed with
      | true =>
        rw [unparkVehicle_eq_closed now hft hcl]
        exact ⟨hA, hB, hC⟩
      | false =>
        have hfind : st.ticketRepo.tickets.find? (fun x => x.id = tid) = some t := hft
        have hcnt := openCount_closeFirst hfind hcl
          (HourlyRateCalculationStrategy.calculateFees t.inTime now) hnow
        have htmem : t ∈ st.ticketRepo.tickets := List.mem_of_find?_eq_some hfind
        have hpos : 0 < openCount st.ticketRepo.tickets t.parkingSpotId :=
          open_mem_openCount_pos htmem hcl
        have h1 : openCount st.ticketRepo.tickets t.parkingSpotId = 1 := by
          have := hC t.parkingSpotId
          omega
        have hle : ∀ y,
            openCount (closeFirst st.ticketRepo.tickets tid
                (HourlyRateCalculationStrategy.calculateFees t.inTime now) now) y
              ≤ openCount st.ticketRepo.tickets y := by
          intro y
          have := hcnt y
          omega
        have hzero : openCount (closeFirst st.ticketRepo.tickets tid
            (HourlyRateCalculationStrategy.calculateFees t.inTime now) now)
            t.parkingSpotId = 0 := by
          have := hcnt t.parkingSpotId
          rw [if_pos rfl] at this
          omega
        have hother : ∀ y, t.parkingSpotId ≠ y →
            openCount (closeFirst st.ticketRepo.tickets tid
                (HourlyRateCalculationStrategy.calculateFees t.inTime now) now) y
              = openCount st.ticketRepo.tickets y := by
          intro y hy
          have := hcnt y
          rw [if_neg hy] at this
          omega
        cases hfl : freeLevels st.parkingLot.levels t.parkingSpotId with
        | none =>
          rw [unparkVehicle_eq_ok_missing now hft hcl hfl]
          refine ⟨hA, ?_, ?_⟩
          · intro x hx
        
            have hne : x.id ≠ t.parkingSpotId := freeLevels_eq_none.mp hfl x hx
            show x.isOccupied = true ↔ _
            rw [hother x.id (fun hh => hne hh.symm)]
            exact hB x hx
          · intro y
            exact le_trans (hle y) (hC y)
        | some ls1 =>
          rw [unparkVehicle_eq_ok_freed now hft hcl hfl]
          obtain ⟨pre, s, post, hsp, hsp1, hsid, hpref⟩ := freeLevels_eq_some hfl
          have hnds : ((pre ++ s :: post).map (fun x => x.id)).Nodup := by
            rw [← hsp]; exact hA
          obtain ⟨hprene, hpostne⟩ := nodup_ids_split hnds
          refine ⟨?_, ?_, ?_⟩
          · show ((allSpots ls1).map (fun s => s.id)).Nodup
            rw [ids_allSpots_free hfl]
            exact hA
          · intro x hx
            have hx1 : x ∈ allSpots ls1 := hx
            rw [hsp1] at hx1
            show x.isOccupied = true ↔ _
            rcases List.mem_append.mp hx1 with hxpre | hxrest
            · have hne : x.id ≠ s.id := hprene x hxpre
              rw [hother x.id (fun hh => hne (hsid ▸ hh).symm)]
              have hxorig : x ∈ allSpots st.parkingLot.levels := by
                rw [hsp]; exact List.mem_append.mpr (Or.inl hxpre)
              exact hB x hxorig
            · rcases List.mem_cons.mp hxrest with rfl | hxpost
              · show false = true ↔ _
                have : ({ s with isOccupied := false } : ParkingSpot).id = s.id := rfl
                rw [this, hsid, hzero]
                simp
              · have hne : x.id ≠ s.id := hpostne x hxpost
                rw [hother x.id (fun hh => hne (hsid ▸ hh).symm)]
                have hxorig : x ∈ allSpots st.parkingLot.levels := by
                  rw [hsp]
                  exact List.mem_append.mpr (Or.inr (List.mem_cons_of_mem _ hxpost))
                exact hB x hxorig
          · intro y
            exact le_trans (hle y) (hC y)

theorem inv_run (st : ParkingLotService) (ops : List Op) (h : Inv st)
    (ht : ∀ op ∈ ops, op.timeNonzero = true) : Inv (runOps st ops) := by
  induction ops generalizing st with
  | nil => exact h
  | cons op ops ih =>
    rw [runOps]
    exact ih (stepOp st op) (inv_step st op (ht op (by simp)) h)
      (fun o ho => ht o (List.mem_cons_of_mem _ ho))

theorem parkVehicle_none_state {st st1 : ParkingLotService} {plate : String}
    {v : VehicleType} {now : Nat} (h : st.parkVehicle plate v now = (none, st1)) :
    st1 = st := by
  rw [ParkingLotService.parkVehicle] at h
  cases hoc : occupyLevels st.parkingLot.levels v with
  | none =>
    rw [hoc] at h
    have h2 : st = st1 := congrArg Prod.snd h
    exact h2.symm
  | some p =>
    obtain ⟨sid, ls1⟩ := p
    rw [hoc] at h
    simp at h

theorem parkVehicle_exhausted {st : ParkingLotService} {v : VehicleType}
    (h : st.getAvailableSlots v = 0) (plate : String) (now : Nat) :
    (st.parkVehicle plate v now).1 = none := by
  rw [ParkingLotService.parkVehicle]
  have hoc : occupyLevels st.parkingLot.levels v = none := by
    rw [occupyLevels_eq_none]
    intro s hs
    rw [ParkingLotService.getAvailableSlots, sum_countAvailable] at h
    have := List.countP_eq_zero.mp h s hs
    simpa using this
  rw [hoc]

theorem countParkSuccesses_le (reqs : List (String × Nat)) (st : ParkingLotService)
    (v : VehicleType) : countParkSuccesses st reqs v ≤ st.getAvailableSlots v := by
  induction reqs generalizing st with
  | nil => simp [countParkSuccesses]
  | cons r rs ih =>
    rw [countParkSuccesses]
    cases hp : st.parkVehicle r.1 v r.2 with
    | mk res st1 =>
      cases res with
      | none =>
        have hst : st1 = st := parkVehicle_none_state hp
        subst hst
        have := ih st1
        simpa [hp] using this
      | some tid =>
        have hav := getAvailableSlots_parkVehicle_success hp
        have := ih st1
        simp only [hp]
        simp only [Option.isSome_some, if_true]
        omega

end ParkingPl

namespace ParkingPl

/-- Claim C1: starting from a freshly constructed pool (all units free,
empty ledger; spot ids unique as the spec's pool invariant requires, and
release times never the epoch), after every sequence of `parkVehicle` and
`unparkVehicle` calls a spot's occupied flag is true exactly when one open
ticket records its id, no spot id is recorded by two open tickets, and
against a pool with N free fitting spots at most N allocations succeed
while an exhausted category makes the next `parkVehicle` fail. -/
theorem parking_occupied_iff_one_open_ticket
    (lot : ParkingLot) (ops : List Op) (st : ParkingLotService)
    (hst : st = runOps (initService lot) ops)
    (hids : ((allSpots lot.levels).map (fun s => s.id)).Nodup)
    (hfree : ∀ s ∈ allSpots lot.levels, s.isOccupied = false)
    (htimes : ∀ op ∈ ops, op.timeNonzero = true) :
    (∀ s ∈ allSpots st.parkingLot.levels,
        (s.isOccupied = true ↔ openCount st.ticketRepo.tickets s.id = 1))
    ∧ (∀ sid, openCount st.ticketRepo.tickets sid ≤ 1)
    ∧ (∀ reqs v, countParkSuccesses st reqs v ≤ st.getAvailableSlots v)
    ∧ (∀ v, st.getAvailableSlots v = 0 →
        ∀ plate now, (st.parkVehicle plate v now).1 = none) := by
  subst hst
  have hinv := inv_run (initService lot) ops (inv_init lot hids hfree) htimes
  exact ⟨hinv.2.1, hinv.2.2, fun reqs v => countParkSuccesses_le reqs _ v,
    fun v hv plate now => parkVehicle_exhausted hv plate now⟩

/-- Witness for C1 at the demo lot of `main` with a park/park/unpark
sequence. -/
theorem parking_occupied_iff_one_open_ticket_witness :
    (∀ s ∈ allSpots (runOps (initService demoLot) demoOps).parkingLot.levels,
        (s.isOccupied = true
          ↔ openCount (runOps (initService demoLot) demoOps).ticketRepo.tickets s.id = 1))
    ∧ (∀ sid, openCount (runOps (initService demoLot) demoOps).ticketRepo.tickets sid ≤ 1)
    ∧ (∀ reqs v, countParkSuccesses (runOps (initService demoLot) demoOps) reqs v
        ≤ (runOps (initService demoLot) demoOps).getAvailableSlots v)
    ∧ (∀ v, (runOps (initService demoLot) demoOps).getAvailableSlots v = 0 →
        ∀ plate now,
          ((runOps (initService demoLot) demoOps).parkVehicle plate v now).1 = none) :=
  parking_occupied_iff_one_open_ticket demoLot demoOps _ rfl (by decide) (by decide)
    (by decide)

end ParkingPl

namespace ParkingPl

/-- Claim C3: if `parkVehicle` succeeds with ticket `tid`, then
`unparkVehicle tid` succeeds, the freed spot is exactly the spot the
allocation occupied (the lot is restored), and `getAvailableSlots` returns
to its pre-allocation value for every category.  Spot ids are assumed
unique across the pool, the spec's structural pool invariant. -/
theorem parking_allocate_release_round_trip
    (st st1 : ParkingLotService) (plate : String) (v : VehicleType)
    (now now2 : Nat) (tid : Nat)
    (hids : ((allSpots st.parkingLot.levels).map (fun s => s.id)).Nodup)
    (hpark : st.parkVehicle plate v now = (some tid, st1)) :
    ∃ fee st2, st1.unparkVehicle tid now2 = .ok (fee, st2)
      ∧ st2.parkingLot = st.parkingLot
      ∧ ∀ c, st2.getAvailableSlots c = st.getAvailableSlots c := by
  rw [ParkingLotService.parkVehicle] at hpark
  cases hoc : occupyLevels st.parkingLot.levels v with
  | none =>
    rw [hoc] at hpark
    simp at hpark
  | some p =>
    obtain ⟨sid, ls1⟩ := p
    rw [hoc] at hpark
    simp only [TicketRepository.createTicket] at hpark
    obtain ⟨htid, hst1⟩ : st.ticketRepo.nextId + 1 = tid ∧
        ({ parkingLot := { st.parkingLot with levels := ls1 },
           ticketRepo :=
             { tickets :=
                 { id := st.ticketRepo.nextId + 1, vehicleLicensePlate := plate,
                   parkingSpotId := sid, inTime := now, outTime := 0, fees := 0 }
                   :: st.ticketRepo.tickets,
               nextId := st.ticketRepo.nextId + 1 } } : ParkingLotService) = st1 := by
      simpa using hpark
    have hft : st1.ticketRepo.getTicket tid
        = some { id := st.ticketRepo.nextId + 1, vehicleLicensePlate := plate,
                 parkingSpotId := sid, inTime := now, outTime := 0, fees := 0 } := by
      rw [← hst1]
      exact List.find?_cons_of_pos _ (by simp [htid])
    have hcl : (Ticket.closed
        { id := st.ticketRepo.nextId + 1, vehicleLicensePlate := plate,
          parkingSpotId := sid, inTime := now, outTime := 0, fees := 0 }) = false := by
      simp [Ticket.closed]
    have hfl : freeLevels st1.parkingLot.levels
        (Ticket.parkingSpotId
          { id := st.ticketRepo.nextId + 1, vehicleLicensePlate := plate,
            parkingSpotId := sid, inTime := now, outTime := 0, fees := 0 })
        = some st.parkingLot.levels := by
      rw [← hst1]
      exact freeLevels_occupyLevels hoc hids
    have hunpark := unparkVehicle_eq_ok_freed now2 hft hcl hfl
    refine ⟨_, _, hunpark, ?_, ?_⟩
    · rw [← hst1]
    · intro c
      rw [ParkingLotService.getAvailableSlots, ParkingLotService.getAvailableSlots]

/-- Witness for C3: parking a car on the fresh demo lot and releasing the
returned ticket restores the lot and every availability count. -/
theorem parking_allocate_release_round_trip_witness :
    ∃ fee st2,
      (((initService demoLot).parkVehicle "ABC-123" .CAR 100).2).unparkVehicle 1 3701
        = .ok (fee, st2)
      ∧ st2.parkingLot = (initService demoLot).parkingLot
      ∧ ∀ c, st2.getAvailableSlots c = (initService demoLot).getAvailableSlots c :=
  parking_allocate_release_round_trip (initService demoLot) _ "ABC-123" .CAR 100 3701 1
    (by decide) rfl

end ParkingPl

namespace ParkingPl

/-- Counterexample for C7: on `ghostSpotService` the open ticket records
spot id 999, which `getSpotById` does not find, yet `unparkVehicle`
does not fail: it completes and returns the $20 fee. -/
theorem unpark_missing_spot_no_error_cex :
    ghostSpotService.parkingLot.getSpotById 999 = none
    ∧ ∃ fee st2, ghostSpotService.unparkVehicle 1 3601 = .ok (fee, st2) ∧ fee = 20 := by
  refine ⟨rfl, ?_⟩
  have hft : ghostSpotService.ticketRepo.getTicket 1
      = some { id := 1, vehicleLicensePlate := "ABC-123", parkingSpotId := 999,
               inTime := 0, outTime := 0, fees := 0 } := rfl
  have hcl : Ticket.closed
      { id := 1, vehicleLicensePlate := "ABC-123", parkingSpotId := 999,
        inTime := 0, outTime := 0, fees := 0 } = false := rfl
  have hfl : freeLevels ghostSpotService.parkingLot.levels
      (Ticket.parkingSpotId
        { id := 1, vehicleLicensePlate := "ABC-123", parkingSpotId := 999,
          inTime := 0, outTime := 0, fees := 0 }) = none := rfl
  have heq := unparkVehicle_eq_ok_missing 3601 hft hcl hfl
  refine ⟨_, _, heq, ?_⟩
  show HourlyRateCalculationStrategy.calculateFees 0 3601 = 20
  show ((⌈(((3601 : ℤ) - 0 : ℤ) : ℚ) / 3600⌉ : ℤ) : ℚ) * 10 = 20
  have h2 : (⌈((3601 : ℚ)) / 3600⌉ : ℤ) = 2 := by
    rw [Int.ceil_eq_iff]
    norm_num
  norm_num [h2]

/-- Claim C7 as amended: when the spot id recorded on an open ticket is
absent from every level, `unparkVehicle` does not fail with an error: it
logs, still closes the ticket, leaves the lot untouched and returns the
computed fee. -/
theorem unpark_missing_spot_still_completes
    (st : ParkingLotService) (tid now : Nat) (t : Ticket)
    (hft : st.ticketRepo.getTicket tid = some t)
    (hopen : t.closed = false)
    (hmissing : st.parkingLot.getSpotById t.parkingSpotId = none) :
    st.unparkVehicle tid now
      = .ok (HourlyRateCalculationStrategy.calculateFees t.inTime now,
        { st with
          ticketRepo :=
            { tickets := closeFirst st.ticketRepo.tickets tid
                (HourlyRateCalculationStrategy.calculateFees t.inTime now) now,
              nextId := st.ticketRepo.nextId } }) :=
  unparkVehicle_eq_ok_missing now hft hopen
    (getSpotById_eq_none_iff_freeLevels.mp hmissing)

/-- Witness for C7's amended claim at the ghost-ticket state. -/
theorem unpark_missing_spot_still_completes_witness :
    ghostSpotService.unparkVehicle 1 3601
      = .ok (HourlyRateCalculationStrategy.calculateFees 0 3601,
        { ghostSpotService with
          ticketRepo :=
            { tickets := closeFirst ghostSpotService.ticketRepo.tickets 1
                (HourlyRateCalculationStrategy.calculateFees 0 3601) 3601,
              nextId := ghostSpotService.ticketRepo.nextId } }) :=
  unpark_missing_spot_still_completes ghostSpotService 1 3601
    { id := 1, vehicleLicensePlate := "ABC-123", parkingSpotId := 999,
      inTime := 0, outTime := 0, fees := 0 } rfl rfl rfl

/-- Claim C10: `TicketRepository::createTicket` issues the id
`nextId + 1`, strictly above every previously issued id (so all ids are
pairwise distinct), the counter invariant is preserved, `getTicket`
retrieves the ticket just created, and every successful `parkVehicle`
returns such a fresh id whose ticket is retrievable. -/
theorem createTicket_fresh_and_retrievable
    (repo repo2 : TicketRepository) (plate : String) (spotId inTime : Nat) (t : Ticket)
    (hcreate : repo.createTicket plate spotId inTime = (t, repo2))
    (hle : ∀ t0 ∈ repo.tickets, t0.id ≤ repo.nextId) :
    (∀ t0 ∈ repo.tickets, t0.id < t.id)
    ∧ t.id = repo.nextId + 1
    ∧ (∀ t0 ∈ repo2.tickets, t0.id ≤ repo2.nextId)
    ∧ ((repo.tickets.map (fun x => x.id)).Nodup →
        (repo2.tickets.map (fun x => x.id)).Nodup)
    ∧ repo2.getTicket t.id = some t
    ∧ (∀ (st st1 : ParkingLotService) (plate2 : String) (v : VehicleType)
          (now : Nat) (tid : Nat),
        st.ticketRepo = repo → st.parkVehicle plate2 v now = (some tid, st1) →
        tid = repo.nextId + 1
        ∧ (∀ t0 ∈ repo.tickets, t0.id < tid)
        ∧ ∃ t1, st1.ticketRepo.getTicket tid = some t1
            ∧ t1.id = tid ∧ t1.vehicleLicensePlate = plate2
            ∧ t1.inTime = now ∧ t1.outTime = 0) := by
  have ht : t
      = { id := repo.nextId + 1, vehicleLicensePlate := plate,
          parkingSpotId := spotId, inTime := inTime, outTime := 0, fees := 0 } := by
    have h2 := congrArg Prod.fst hcreate
    simpa [TicketRepository.createTicket] using h2.symm
  have hts : repo2.tickets
      = { id := repo.nextId + 1, vehicleLicensePlate := plate,
          parkingSpotId := spotId, inTime := inTime, outTime := 0, fees := 0 }
        :: repo.tickets := by
    have h2 := congrArg (fun p => (Prod.snd p).tickets) hcreate
    simpa [TicketRepository.createTicket] using h2.symm
  have hnx : repo2.nextId = repo.nextId + 1 := by
    have h2 := congrArg (fun p => (Prod.snd p).nextId) hcreate
    simpa [TicketRepository.createTicket] using h2.symm
  have htid : t.id = repo.nextId + 1 := by rw [ht]
  refine ⟨?_, htid, ?_, ?_, ?_, ?_⟩
  · intro t0 h0
    rw [htid]
    exact Nat.lt_succ_of_le (hle t0 h0)
  · intro t0 h0
    rw [hts] at h0
    rw [hnx]
    rcases List.mem_cons.mp h0 with rfl | h0
    · exact le_refl _
    · exact le_trans (hle t0 h0) (Nat.le_succ _)
  · intro hnd
    rw [hts, List.map_cons, List.nodup_cons]
    refine ⟨?_, hnd⟩
    intro hmem
    obtain ⟨t0, h0, hid⟩ := List.mem_map.mp hmem
    have hid2 : t0.id = repo.nextId + 1 := by simpa using hid
    have := hle t0 h0
    omega
  · rw [TicketRepository.getTicket, hts, ht]
    exact List.find?_cons_of_pos _ (by simp)
  · intro st st1 plate2 v now tid hsr hpark
    rw [ParkingLotService.parkVehicle] at hpark
    cases hoc : occupyLevels st.parkingLot.levels v with
    | none =>
      rw [hoc] at hpark
      simp at hpark
    | some p =>
      obtain ⟨sid, ls1⟩ := p
      rw [hoc] at hpark
      simp only [TicketRepository.createTicket] at hpark
      obtain ⟨htid2, hst1⟩ : st.ticketRepo.nextId + 1 = tid ∧
          ({ parkingLot := { st.parkingLot with levels := ls1 },
             ticketRepo :=
               { tickets :=
                   { id := st.ticketRepo.nextId + 1, vehicleLicensePlate := plate2,
                     parkingSpotId := sid, inTime := now, outTime := 0, fees := 0 }
                     :: st.ticketRepo.tickets,
                 nextId := st.ticketRepo.nextId + 1 } } : ParkingLotService) = st1 := by
        simpa using hpark
      rw [hsr] at htid2
      refine ⟨htid2.symm, ?_, ?_⟩
      · intro t0 h0
        have := hle t0 h0
        omega
      · refine
          ⟨{ id := st.ticketRepo.nextId + 1, vehicleLicensePlate := plate2,
             parkingSpotId := sid, inTime := now, outTime := 0, fees := 0 },
           ?_, ?_, rfl, rfl, rfl⟩
        · rw [← hst1]
          exact List.find?_cons_of_pos _ (by simp [hsr, htid2])
        · show st.ticketRepo.nextId + 1 = tid
          rw [hsr]
          exact htid2

/-- Witness for C10 at a one-ticket repository. -/
theorem createTicket_fresh_and_retrievable_witness :
    ∃ t repo2, demoRepo.createTicket "XYZ-789" 102 200 = (t, repo2)
      ∧ (∀ t0 ∈ demoRepo.tickets, t0.id < t.id)
      ∧ t.id = demoRepo.nextId + 1
      ∧ repo2.getTicket t.id = some t := by
  obtain ⟨h1, h2, _, _, h5, _⟩ :=
    createTicket_fresh_and_retrievable demoRepo
      (demoRepo.createTicket "XYZ-789" 102 200).2 "XYZ-789" 102 200
      (demoRepo.createTicket "XYZ-789" 102 200).1 rfl (by decide)
  exact ⟨_, _, rfl, h1, h2, h5⟩

end ParkingPl

namespace Bms

theorem bookingsFind_setCancelled {bs : List Booking} {bid : Nat} {b : Booking}
    (h : bookingsFind bs bid = some b) :
    bookingsFind (setCancelled bs bid) bid = some { b with status := .CANCELLED } := by
  induction bs with
  | nil => simp [bookingsFind] at h
  | cons x bs ih =>
    by_cases hx : x.id = bid
    · have hxb : x = b := by
        rw [bookingsFind, List.find?_cons] at h
        simpa [hx] using h
      subst hxb
      rw [setCancelled, if_pos hx, bookingsFind]
      exact List.find?_cons_of_pos _ (by simp [hx])
    · have hfind : bookingsFind bs bid = some b := by
        rw [bookingsFind, List.find?_cons] at h
        rw [bookingsFind]
        simpa [hx] using h
      rw [setCancelled, if_neg hx, bookingsFind, List.find?_cons]
      have hrec := ih hfind
      rw [bookingsFind] at hrec
      simpa [hx] using hrec

theorem cancelBooking_true_parts {bst bst1 : BmsState} {bid : Nat}
    (hcancel : bst.cancelBooking bid = (true, bst1)) :
    ∃ booking, bookingsFind bst.bookingRepo.bookings bid = some booking
      ∧ booking.status ≠ BookingStatus.CANCELLED
      ∧ bst1.bookingRepo.bookings = setCancelled bst.bookingRepo.bookings bid := by
  rw [BmsState.cancelBooking] at hcancel
  split at hcancel
  · exact absurd (congrArg Prod.fst hcancel) (by simp)
  next booking hbf =>
    split at hcancel
    · exact absurd (congrArg Prod.fst hcancel) (by simp)
    next hbc =>
      refine ⟨booking, hbf, hbc, ?_⟩
      cases hsf : showsFind bst.shows booking.showId with
      | none =>
        rw [hsf] at hcancel
        have h2 : bst1
            = { shows := bst.shows,
                bookingRepo :=
                  { bookings := setCancelled bst.bookingRepo.bookings bid,
                    nextId := bst.bookingRepo.nextId } } := by
          have h3 := congrArg Prod.snd hcancel
          simpa using h3.symm
        rw [h2]
      | some sh =>
        rw [hsf] at hcancel
        have h2 : bst1
            = { shows := showsUpdate bst.shows booking.showId
                  { sh with seats := releaseSeats booking.seatIds sh.seats },
                bookingRepo :=
                  { bookings := setCancelled bst.bookingRepo.bookings bid,
                    nextId := bst.bookingRepo.nextId } } := by
          have h3 := congrArg Prod.snd hcancel
          simpa using h3.symm
        rw [h2]

end Bms

/-- Claim C4: releasing a reservation id twice succeeds exactly once.  In
pl.cpp a second `unparkVehicle` of the same ticket fails with the
already-closed error and the fee recorded by the first release is intact;
in book_my_show.cpp a second `cancelBooking` of the same booking returns
`false` and leaves the state exactly as the first call left it. -/
theorem release_twice_second_rejected
    (st st1 : ParkingPl.ParkingLotService) (tid now1 now2 : Nat) (fee : ℚ)
    (hnz : now1 ≠ 0)
    (hrel : st.unparkVehicle tid now1 = .ok (fee, st1))
    (bst bst1 : Bms.BmsState) (bid : Nat)
    (hcancel : bst.cancelBooking bid = (true, bst1)) :
    st1.unparkVehicle tid now2 = .error .TicketAlreadyClosed
    ∧ (∃ t1, st1.ticketRepo.getTicket tid = some t1 ∧ t1.fees = fee ∧ t1.closed = true)
    ∧ bst1.cancelBooking bid = (false, bst1) := by
  cases hft : st.ticketRepo.getTicket tid with
  | none =>
    rw [ParkingPl.unparkVehicle_eq_notfound now1 hft] at hrel
    exact absurd hrel (by simp)
  | some t =>
    cases hcl : t.closed with
    | true =>
      rw [ParkingPl.unparkVehicle_eq_closed now1 hft hcl] at hrel
      exact absurd hrel (by simp)
    | false =>
      have key : fee = ParkingPl.HourlyRateCalculationStrategy.calculateFees t.inTime now1
          ∧ st1.ticketRepo.tickets
            = ParkingPl.closeFirst st.ticketRepo.tickets tid
                (ParkingPl.HourlyRateCalculationStrategy.calculateFees t.inTime now1) now1 := by
        cases hfl : ParkingPl.freeLevels st.parkingLot.levels t.parkingSpotId with
        | none =>
          rw [ParkingPl.unparkVehicle_eq_ok_missing now1 hft hcl hfl] at hrel
          have h1 : ParkingPl.HourlyRateCalculationStrategy.calculateFees t.inTime now1 = fee := by
            have := congrArg (fun e => match e with
              | Except.ok (p : ℚ × ParkingPl.ParkingLotService) => p.1
              | Except.error _ => 0) hrel
            simpa using this
          have h2 := congrArg (fun e => match e with
            | Except.ok (p : ℚ × ParkingPl.ParkingLotService) => p.2.ticketRepo.tickets
            | Except.error _ => []) hrel
          exact ⟨h1.symm, by simpa using h2.symm⟩
        | some ls1 =>
          rw [ParkingPl.unparkVehicle_eq_ok_freed now1 hft hcl hfl] at hrel
          have h1 : ParkingPl.HourlyRateCalculationStrategy.calculateFees t.inTime now1 = fee := by
            have := congrArg (fun e => match e with
              | Except.ok (p : ℚ × ParkingPl.ParkingLotService) => p.1
              | Except.error _ => 0) hrel
            simpa using this
          have h2 := congrArg (fun e => match e with
            | Except.ok (p : ℚ × ParkingPl.ParkingLotService) => p.2.ticketRepo.tickets
            | Except.error _ => []) hrel
          exact ⟨h1.symm, by simpa using h2.symm⟩
      obtain ⟨hfee, hticks⟩ := key
      have hfind : st.ticketRepo.tickets.find? (fun x => x.id = tid) = some t := hft
      have hft1 : st1.ticketRepo.getTicket tid
          = some (t.close
              (ParkingPl.HourlyRateCalculationStrategy.calculateFees t.inTime now1) now1) := by
        rw [ParkingPl.TicketRepository.getTicket, hticks]
        exact ParkingPl.getTicket_closeFirst hfind _ now1
      have hcl1 : (t.close
          (ParkingPl.HourlyRateCalculationStrategy.calculateFees t.inTime now1) now1).closed
          = true := ParkingPl.closed_close hnz
      refine ⟨ParkingPl.unparkVehicle_eq_closed now2 hft1 hcl1, ⟨_, hft1, ?_, hcl1⟩, ?_⟩
      · show (t.close
            (ParkingPl.HourlyRateCalculationStrategy.calculateFees t.inTime now1) now1).fees
            = fee
        rw [hfee]
        rfl
      · obtain ⟨booking, hbf, hbc, hbooks⟩ := Bms.cancelBooking_true_parts hcancel
        have hfind2 : Bms.bookingsFind bst1.bookingRepo.bookings bid
            = some { booking with status := .CANCELLED } := by
          rw [hbooks]
          exact Bms.bookingsFind_setCancelled hbf
        show Bms.BmsState.cancelBooking bst1 bid = (false, bst1)
        rw [Bms.BmsState.cancelBooking, hfind2]
        simp

/-- Witness for C4: a held spot is released once for a fee, a confirmed
booking is cancelled once; the second release of each id is rejected and
changes nothing. -/
theorem release_twice_second_rejected_witness :
    ∃ (fee : ℚ) (st1 : ParkingPl.ParkingLotService) (bst1 : Bms.BmsState),
      ParkingPl.ghostSpotService.unparkVehicle 1 3601 = .ok (fee, st1)
      ∧ Bms.BmsState.cancelBooking Bms.bookedDemoState 1000 = (true, bst1)
      ∧ st1.unparkVehicle 1 7200 = .error .TicketAlreadyClosed
      ∧ (∃ t1, st1.ticketRepo.getTicket 1 = some t1 ∧ t1.fees = fee ∧ t1.closed = true)
      ∧ bst1.cancelBooking 1000 = (false, bst1) := by
  obtain ⟨h1, h2, h3⟩ := release_twice_second_rejected ParkingPl.ghostSpotService _ 1 3601 7200 _
    (by decide) rfl Bms.bookedDemoState _ 1000 rfl
  exact ⟨_, _, _, rfl, rfl, h1, h2, h3⟩

namespace Bms

theorem seatsFind_seatsSet_self (seats : List (Nat × ShowSeat)) (k : Nat) (v : ShowSeat) :
    seatsFind (seatsSet seats k v) k = some v := by
  induction seats with
  | nil => simp [seatsSet, seatsFind]
  | cons p ps ih =>
    rw [seatsSet]
    by_cases hp : p.1 = k
    · rw [if_pos hp]
      simp [seatsFind]
    · rw [if_neg hp]
      rw [seatsFind, List.find?_cons]
      have hrec := ih
      rw [seatsFind] at hrec
      simpa [hp] using hrec

theorem seatsFind_seatsSet_ne (seats : List (Nat × ShowSeat)) (k k2 : Nat) (v : ShowSeat)
    (h : k2 ≠ k) : seatsFind (seatsSet seats k v) k2 = seatsFind seats k2 := by
  induction seats with
  | nil => simp [seatsSet, seatsFind, Ne.symm h]
  | cons p ps ih =>
    rw [seatsSet]
    by_cases hp : p.1 = k
    · rw [if_pos hp]
      rw [seatsFind, seatsFind, List.find?_cons, List.find?_cons]
      have h1 : (decide (k = k2)) = false := by simp [Ne.symm h]
      have h2 : (decide (p.1 = k2)) = false := by simp [hp, Ne.symm h]
      rw [h1, h2]
    · rw [if_neg hp]
      rw [seatsFind, seatsFind, List.find?_cons, List.find?_cons]
      cases hpk : decide (p.1 = k2) with
      | true => rfl
      | false =>
        have hrec := ih
        rw [seatsFind, seatsFind] at hrec
        exact hrec

theorem seatsFind_append_of_some {seats : List (Nat × ShowSeat)} {k : Nat} {s : ShowSeat}
    (l : List (Nat × ShowSeat)) (h : seatsFind seats k = some s) :
    seatsFind (seats ++ l) k = some s := by
  rw [seatsFind] at h ⊢
  obtain ⟨p, hp, hmap⟩ := Option.map_eq_some'.mp h
  rw [List.find?_append, hp]
  simpa using hmap

theorem seatsFind_append_single_of_none {seats : List (Nat × ShowSeat)} {k : Nat}
    (sid : Nat) (v : ShowSeat) (h : seatsFind seats k = none) :
    seatsFind (seats ++ [(sid, v)]) k
      = if sid = k then some v else none := by
  rw [seatsFind] at h ⊢
  rw [Option.map_eq_none'] at h
  rw [List.find?_append, h]
  by_cases hs : sid = k
  · simp [hs]
  · simp [hs]

theorem validateSeats_extends (ids : List Nat) (seats : List (Nat × ShowSeat)) :
    (∀ k s, seatsFind seats k = some s →
      seatsFind (validateSeats ids seats).2 k = some s)
    ∧ (∀ k, seatsFind seats k = none →
        seatsFind (validateSeats ids seats).2 k = none
        ∨ seatsFind (validateSeats ids seats).2 k = some ShowSeat.defaultSeat) := by
  induction ids generalizing seats with
  | nil => exact ⟨fun k s h => h, fun k h => Or.inl h⟩
  | cons sid rest ih =>
    rw [validateSeats]
    cases hfind : seatsFind seats sid with
    | some s0 =>
      rw [seatsIndex, hfind]
      by_cases hst : s0.status ≠ SeatStatus.AVAILABLE
      · rw [if_pos hst]
        exact ⟨fun k s h => h, fun k h => Or.inl h⟩
      · rw [if_neg hst]
        exact ih seats
    | none =>
      rw [seatsIndex, hfind]
      have hd : (ShowSeat.defaultSeat.status ≠ SeatStatus.AVAILABLE) = False := by
        simp [ShowSeat.defaultSeat]
      rw [if_neg (by simp [ShowSeat.defaultSeat])]
      constructor
      · intro k s h
        exact (ih (seats ++ [(sid, ShowSeat.defaultSeat)])).1 k s
          (seatsFind_append_of_some _ h)
      · intro k h
        have happ := seatsFind_append_single_of_none sid ShowSeat.defaultSeat h
        by_cases hk : sid = k
        · rw [if_pos hk] at happ
          exact Or.inr ((ih (seats ++ [(sid, ShowSeat.defaultSeat)])).1 k _ happ)
        · rw [if_neg hk] at happ
          exact (ih (seats ++ [(sid, ShowSeat.defaultSeat)])).2 k happ

theorem validateSeats_error {ids : List Nat} {seats : List (Nat × ShowSeat)}
    {e : BookingError} (h : (validateSeats ids seats).1 = some e) :
    ∃ j ∈ ids, ∃ s, seatsFind seats j = some s
      ∧ s.status ≠ SeatStatus.AVAILABLE := by
  induction ids generalizing seats with
  | nil => simp [validateSeats] at h
  | cons sid rest ih =>
    rw [validateSeats] at h
    cases hfind : seatsFind seats sid with
    | some s0 =>
      rw [seatsIndex, hfind] at h
      by_cases hst : s0.status ≠ SeatStatus.AVAILABLE
      · exact ⟨sid, by simp, s0, hfind, hst⟩
      · rw [if_neg hst] at h
        obtain ⟨j, hj, s, hsf, hsta⟩ := ih h
        exact ⟨j, List.mem_cons_of_mem _ hj, s, hsf, hsta⟩
    | none =>
      rw [seatsIndex, hfind] at h
      rw [if_neg (by simp [ShowSeat.defaultSeat])] at h
      obtain ⟨j, hj, s, hsf, hsta⟩ := ih h
      by_cases hjk : seatsFind seats j = none
      · have happ := seatsFind_append_single_of_none sid ShowSeat.defaultSeat hjk
        rw [hsf] at happ
        by_cases hsid : sid = j
        · rw [if_pos hsid] at happ
          have : s = ShowSeat.defaultSeat := Option.some_injective _ happ
          rw [this] at hsta
          exact absurd rfl hsta
        · rw [if_neg hsid] at happ
          exact absurd happ (by simp)
      · obtain ⟨s1, hs1⟩ := Option.ne_none_iff_exists'.mp hjk
        have := seatsFind_append_of_some [(sid, ShowSeat.defaultSeat)] hs1
        rw [hsf] at this
        obtain rfl := Option.some_injective _ this
        exact ⟨j, List.mem_cons_of_mem _ hj, s, hs1, hsta⟩

theorem showsFind_showsUpdate_ne (shows : List (Nat × Show)) (k : Nat) (s : Show)
    (k2 : Nat) (h : k2 ≠ k) :
    showsFind (showsUpdate shows k s) k2 = showsFind shows k2 := by
  induction shows with
  | nil => simp [showsUpdate]
  | cons p ps ih =>
    rw [showsUpdate]
    by_cases hp : p.1 = k
    · rw [if_pos hp]
      rw [showsFind, showsFind, List.find?_cons, List.find?_cons]
      have h1 : (decide (k = k2)) = false := by simp [Ne.symm h]
      have h2 : (decide (p.1 = k2)) = false := by simp [hp, Ne.symm h]
      rw [h1, h2]
    · rw [if_neg hp]
      rw [showsFind, showsFind, List.find?_cons, List.find?_cons]
      cases hpk : decide (p.1 = k2) with
      | true => rfl
      | false =>
        have hrec := ih
        rw [showsFind, showsFind] at hrec
        exact hrec

theorem showsFind_showsUpdate_self {shows : List (Nat × Show)} {k : Nat} (s : Show)
    {s0 : Show} (h : showsFind shows k = some s0) :
    showsFind (showsUpdate shows k s) k = some s := by
  induction shows with
  | nil => simp [showsFind] at h
  | cons p ps ih =>
    rw [showsUpdate]
    by_cases hp : p.1 = k
    · rw [if_pos hp]
      simp [showsFind]
    · rw [if_neg hp]
      rw [showsFind, List.find?_cons]
      have hfind : showsFind ps k = some s0 := by
        rw [showsFind, List.find?_cons] at h
        rw [showsFind]
        simpa [hp] using h
      have hrec := ih hfind
      rw [showsFind] at hrec
      simpa [hp] using hrec

theorem createBooking_eq_noshow (pricing : ℚ → ℚ) (st : BmsState) (u showId : Nat)
    (ids : List Nat) (h : showsFind st.shows showId = none) :
    st.createBooking pricing u showId ids = (.error .ShowNotFound, st) := by
  simp [BmsState.createBooking, h]

theorem createBooking_eq_invalid {st : BmsState} {showId : Nat} {sh : Show}
    (pricing : ℚ → ℚ) (u : Nat) (ids : List Nat)
    (hsf : showsFind st.shows showId = some sh) {e : BookingError}
    {seats2 : List (Nat × ShowSeat)}
    (hval : validateSeats ids sh.seats = (some e, seats2)) :
    st.createBooking pricing u showId ids
      = (.error e,
        { st with shows := showsUpdate st.shows showId { sh with seats := seats2 } }) := by
  simp [BmsState.createBooking, hsf, hval]

theorem createBooking_eq_ok {st : BmsState} {showId : Nat} {sh : Show}
    (pricing : ℚ → ℚ) (u : Nat) (ids : List Nat)
    (hsf : showsFind st.shows showId = some sh) {seats1 : List (Nat × ShowSeat)}
    (hval : validateSeats ids sh.seats = (none, seats1)) :
    st.createBooking pricing u showId ids
      = (.ok { id := st.bookingRepo.nextId, userId := u, showId := showId,
               seatIds := ids, amount := (bookSeats pricing ids seats1 0).1,
               status := .CONFIRMED },
        { shows := showsUpdate st.shows showId
            { sh with seats := (bookSeats pricing ids seats1 0).2 },
          bookingRepo :=
            { bookings :=
                { id := st.bookingRepo.nextId, userId := u, showId := showId,
                  seatIds := ids, amount := (bookSeats pricing ids seats1 0).1,
                  status := .CONFIRMED } :: st.bookingRepo.bookings,
              nextId := st.bookingRepo.nextId + 1 } }) := by
  simp [BmsState.createBooking, hsf, hval]

end Bms

namespace Bms

theorem bookSeats_cons_found (pricing : ℚ → ℚ) {seats : List (Nat × ShowSeat)}
    {sid : Nat} {s0 : ShowSeat} (rest : List Nat) (total : ℚ)
    (hfind : seatsFind seats sid = some s0) :
    bookSeats pricing (sid :: rest) seats total
      = bookSeats pricing rest (seatsSet seats sid { s0 with status := .BOOKED })
          (total + pricing s0.price) := by
  simp only [bookSeats, seatsIndex, hfind, seatsFind_seatsSet_self]

end Bms

/-- Counterexample for C5: `createBooking` on a show whose seat 1 is BOOKED
and whose seat 2 is absent, requesting seats [2, 1], fails — yet the
validation loop's `operator[]` has already inserted a default AVAILABLE
seat under key 2 into the show's seat map, a mutation observable after the
failure. -/
theorem createBooking_failure_inserts_seat_cex :
    (Bms.BmsState.createBooking Bms.RegularPricing.calculate
        Bms.bookedSeatState 99 501 [2, 1]).1 = .error (.SeatOccupied 1)
    ∧ Bms.showsFind Bms.bookedSeatState.shows 501
        = some { id := 501, movieId := 1, theaterId := 1, startTime := "",
                 seats := [(1, { seatId := 1, price := 20, status := .BOOKED })] }
    ∧ Bms.seatsFind [(1, { seatId := 1, price := 20, status := .BOOKED })] 2 = none
    ∧ (∃ sh2, Bms.showsFind
          (Bms.BmsState.createBooking Bms.RegularPricing.calculate
            Bms.bookedSeatState 99 501 [2, 1]).2.shows 501 = some sh2
        ∧ Bms.seatsFind sh2.seats 2 = some Bms.ShowSeat.defaultSeat) :=
  ⟨rfl, rfl, rfl, ⟨_, rfl, rfl⟩⟩

/-- Claim C5 as amended: a failed `parkVehicle` leaves the service state
untouched, and a failed `createBooking` creates no booking, leaves the
booking repository and every other show untouched, and preserves every
seat already in the target show's map — but its availability check may
insert default-constructed AVAILABLE seats (price 0) for requested seat
ids that were not present. -/
theorem failure_performs_no_mutation
    (stp : ParkingPl.ParkingLotService) (plate : String) (v : ParkingPl.VehicleType)
    (nowp : Nat) (pricing : ℚ → ℚ) (st : Bms.BmsState) (u showId : Nat)
    (ids : List Nat) (e : Bms.BookingError) (st2 : Bms.BmsState)
    (hfail : (stp.parkVehicle plate v nowp).1 = none)
    (hbfail : st.createBooking pricing u showId ids = (.error e, st2)) :
    (stp.parkVehicle plate v nowp).2 = stp
    ∧ st2.bookingRepo = st.bookingRepo
    ∧ (∀ k, k ≠ showId → Bms.showsFind st2.shows k = Bms.showsFind st.shows k)
    ∧ (∀ sh sh2, Bms.showsFind st.shows showId = some sh →
        Bms.showsFind st2.shows showId = some sh2 →
        (∀ k s, Bms.seatsFind sh.seats k = some s → Bms.seatsFind sh2.seats k = some s)
        ∧ (∀ k, Bms.seatsFind sh.seats k = none →
            Bms.seatsFind sh2.seats k = none
            ∨ Bms.seatsFind sh2.seats k = some Bms.ShowSeat.defaultSeat)) := by
  have hpark : (stp.parkVehicle plate v nowp).2 = stp := by
    rw [ParkingPl.ParkingLotService.parkVehicle]
    cases hoc : ParkingPl.occupyLevels stp.parkingLot.levels v with
    | none => rfl
    | some p =>
      rw [ParkingPl.ParkingLotService.parkVehicle, hoc] at hfail
      obtain ⟨sid, ls1⟩ := p
      simp at hfail
  refine ⟨hpark, ?_⟩
  cases hsf : Bms.showsFind st.shows showId with
  | none =>
    rw [Bms.createBooking_eq_noshow pricing st u showId ids hsf] at hbfail
    have hst2 : st = st2 := congrArg Prod.snd hbfail
    subst hst2
    refine ⟨rfl, fun k _ => rfl, ?_⟩
    intro sh sh2 h1 h2
    exact absurd h1 (by simp)
  | some sh0 =>
    cases hval : Bms.validateSeats ids sh0.seats with
    | mk e2 seats2 =>
      cases e2 with
      | none =>
        rw [Bms.createBooking_eq_ok pricing u ids hsf hval] at hbfail
        exact absurd (congrArg Prod.fst hbfail) (by simp)
      | some e3 =>
        rw [Bms.createBooking_eq_invalid pricing u ids hsf hval] at hbfail
        have hst2 : st2
            = { st with
                shows := Bms.showsUpdate st.shows showId { sh0 with seats := seats2 } } :=
          (congrArg Prod.snd hbfail).symm
        have hrepo : st2.bookingRepo = st.bookingRepo := by
          rw [hst2]
        have hshows : st2.shows
            = Bms.showsUpdate st.shows showId { sh0 with seats := seats2 } := by
          rw [hst2]
        refine ⟨hrepo, ?_, ?_⟩
        · intro k hk
          rw [hshows]
          exact Bms.showsFind_showsUpdate_ne st.shows showId _ k hk
        · intro sh sh2 h1 h2
          have hsh : sh = sh0 := (Option.some_injective _ h1).symm
          subst hsh
          have h3 : Bms.showsFind st2.shows showId
              = some { sh with seats := seats2 } := by
            rw [hshows]
            exact Bms.showsFind_showsUpdate_self _ hsf
          rw [h3] at h2
          obtain rfl := Option.some_injective _ h2
          have hext := Bms.validateSeats_extends ids sh.seats
          rw [hval] at hext
          exact hext

/-- Witness for C5: a park attempt on a fully occupied lot and a booking
attempt containing a BOOKED seat both fail without the forbidden
mutations. -/
theorem failure_performs_no_mutation_witness :
    ((ParkingPl.heldSpotService.parkVehicle "L-999" .CAR 7).2 = ParkingPl.heldSpotService)
    ∧ (Bms.BmsState.createBooking Bms.RegularPricing.calculate
          Bms.bookedSeatState 99 501 [2, 1]).2.bookingRepo
        = Bms.bookedSeatState.bookingRepo
    ∧ (∀ k, k ≠ 501 →
        Bms.showsFind (Bms.BmsState.createBooking Bms.RegularPricing.calculate
            Bms.bookedSeatState 99 501 [2, 1]).2.shows k
          = Bms.showsFind Bms.bookedSeatState.shows k)
    ∧ (∀ sh sh2, Bms.showsFind Bms.bookedSeatState.shows 501 = some sh →
        Bms.showsFind (Bms.BmsState.createBooking Bms.RegularPricing.calculate
            Bms.bookedSeatState 99 501 [2, 1]).2.shows 501 = some sh2 →
        (∀ k s, Bms.seatsFind sh.seats k = some s → Bms.seatsFind sh2.seats k = some s)
        ∧ (∀ k, Bms.seatsFind sh.seats k = none →
            Bms.seatsFind sh2.seats k = none
            ∨ Bms.seatsFind sh2.seats k = some Bms.ShowSeat.defaultSeat)) :=
  failure_performs_no_mutation ParkingPl.heldSpotService "L-999" .CAR 7
    Bms.RegularPricing.calculate Bms.bookedSeatState 99 501 [2, 1]
    (.SeatOccupied 1) _ rfl rfl

/-- Claim C9: `createBooking` for a stored show and a seat id absent from
the show's seat map succeeds: the `operator[]` lookup default-constructs
an AVAILABLE price-0 `ShowSeat`, the call books it and returns a CONFIRMED
booking whose amount is `pricing 0`; and `createBooking` fails only when
the show id is unknown or some requested seat already present has a status
other than AVAILABLE. -/
theorem createBooking_absent_seat_succeeds
    (pricing : ℚ → ℚ) (st : Bms.BmsState) (userId showId s : Nat) (sh : Bms.Show)
    (hsf : Bms.showsFind st.shows showId = some sh)
    (hseat : Bms.seatsFind sh.seats s = none) :
    (∃ b st2, st.createBooking pricing userId showId [s] = (.ok b, st2)
      ∧ b.status = .CONFIRMED
      ∧ b.amount = pricing 0
      ∧ ∃ sh2, Bms.showsFind st2.shows showId = some sh2
          ∧ Bms.seatsFind sh2.seats s
            = some { seatId := 0, price := 0, status := .BOOKED })
    ∧ (∀ (u showId2 : Nat) (ids : List Nat) (e : Bms.BookingError) (st2 : Bms.BmsState),
        st.createBooking pricing u showId2 ids = (.error e, st2) →
        Bms.showsFind st.shows showId2 = none
        ∨ ∃ sh0, Bms.showsFind st.shows showId2 = some sh0
            ∧ ∃ j ∈ ids, ∃ seat, Bms.seatsFind sh0.seats j = some seat
                ∧ seat.status ≠ Bms.SeatStatus.AVAILABLE) := by
  constructor
  · have hval : Bms.validateSeats [s] sh.seats
        = (none, sh.seats ++ [(s, Bms.ShowSeat.defaultSeat)]) := by
      rw [Bms.validateSeats, Bms.seatsIndex, hseat]
      rw [if_neg (by simp [Bms.ShowSeat.defaultSeat])]
      rfl
    have hfind1 : Bms.seatsFind (sh.seats ++ [(s, Bms.ShowSeat.defaultSeat)]) s
        = some Bms.ShowSeat.defaultSeat := by
      rw [Bms.seatsFind_append_single_of_none s Bms.ShowSeat.defaultSeat hseat]
      simp
    have hbook := Bms.bookSeats_cons_found pricing [] 0 hfind1
    refine ⟨_, _, Bms.createBooking_eq_ok pricing userId [s] hsf hval, rfl, ?_, ?_⟩
    · show (Bms.bookSeats pricing [s] (sh.seats ++ [(s, Bms.ShowSeat.defaultSeat)]) 0).1
        = pricing 0
      rw [hbook]
      show 0 + pricing Bms.ShowSeat.defaultSeat.price = pricing 0
      exact zero_add _
    · refine ⟨_, Bms.showsFind_showsUpdate_self _ hsf, ?_⟩
      show Bms.seatsFind
          (Bms.bookSeats pricing [s] (sh.seats ++ [(s, Bms.ShowSeat.defaultSeat)]) 0).2 s
        = _
      rw [hbook]
      exact Bms.seatsFind_seatsSet_self _ s _
  · intro u showId2 ids e st2 hfail
    cases hsf2 : Bms.showsFind st.shows showId2 with
    | none => exact Or.inl rfl
    | some sh0 =>
      refine Or.inr ⟨sh0, rfl, ?_⟩
      cases hval : Bms.validateSeats ids sh0.seats with
      | mk e2 seats2 =>
        cases e2 with
        | none =>
          rw [Bms.createBooking_eq_ok pricing u ids hsf2 hval] at hfail
          exact absurd (congrArg Prod.fst hfail) (by simp)
        | some e3 =>
          exact Bms.validateSeats_error (by rw [hval])

/-- Witness for C9: booking the absent seat 2 of the demo show yields a
CONFIRMED booking priced `calculate(0)` and books a default seat. -/
theorem createBooking_absent_seat_succeeds_witness :
    (∃ b st2, Bms.BmsState.createBooking Bms.HolidayPricing.calculate
        Bms.openSeatState 99 501 [2] = (.ok b, st2)
      ∧ b.status = .CONFIRMED
      ∧ b.amount = Bms.HolidayPricing.calculate 0
      ∧ ∃ sh2, Bms.showsFind st2.shows 501 = some sh2
          ∧ Bms.seatsFind sh2.seats 2
            = some { seatId := 0, price := 0, status := .BOOKED })
    ∧ (∀ (u showId2 : Nat) (ids : List Nat) (e : Bms.BookingError) (st2 : Bms.BmsState),
        Bms.BmsState.createBooking Bms.HolidayPricing.calculate
            Bms.openSeatState u showId2 ids = (.error e, st2) →
        Bms.showsFind Bms.openSeatState.shows showId2 = none
        ∨ ∃ sh0, Bms.showsFind Bms.openSeatState.shows showId2 = some sh0
            ∧ ∃ j ∈ ids, ∃ seat, Bms.seatsFind sh0.seats j = some seat
                ∧ seat.status ≠ Bms.SeatStatus.AVAILABLE) :=
  createBooking_absent_seat_succeeds Bms.HolidayPricing.calculate Bms.openSeatState
    99 501 2
    { id := 501, movieId := 1, theaterId := 1, startTime := "",
      seats := [(1, { seatId := 1, price := 20, status := .AVAILABLE })] }
    rfl rfl

/-- Witness for C6 at the demo lot: the strategy's pick for a car is the
first free fitting spot of the flattened scan order. -/
theorem assignSpot_first_fit_witness :
    ParkingPl.LowestLevelFirstStrategy.assignSpot ParkingPl.demoLot.levels .CAR
      = (ParkingPl.allSpots ParkingPl.demoLot.levels).find?
          (fun s => !s.isOccupied && s.canFit .CAR)
    ∧ (ParkingPl.LowestLevelFirstStrategy.assignSpot ParkingPl.demoLot.levels .CAR = none
        ↔ ∀ s ∈ ParkingPl.allSpots ParkingPl.demoLot.levels,
            (!s.isOccupied && s.canFit .CAR) = false) :=
  assignSpot_first_fit ParkingPl.demoLot.levels .CAR
